import Mathlib

/-! # The oz agent worker: volume naming, artifact extraction, task lifecycle

A shallow embedding of `internal/worker/worker.go`.

Conventions of the embedding.

* A Go `string` is a sequence of bytes: `GoString = List UInt8`.  `len` is
  `List.length`, `s[:n]` is `List.take n`, `+` is `++`.  `str` turns a literal
  into its UTF-8 bytes.
* A Go `error` is modelled by its message; `nil` is `none`.
* A JSON document is given by the content of its members (`jsonString`).
* Calls into the container daemon, the websocket and the reference-parsing
  library leave the program; their answers are fields of `Env`, and the calls
  themselves are recorded, in order, in a trace.
* Logging is not modelled.
-/

namespace OzWorker

/-! ## Strings -/

/-- A Go string: a sequence of bytes. -/
abbrev GoString := List UInt8

/-- The UTF-8 bytes of a literal. -/
def str (s : String) : GoString := s.toUTF8.data.toList

/-- The call `strings.Split(s, sep)` for a one-byte separator: the pieces of
`s` between the occurrences of `sep`; always at least one piece. -/
def stringsSplit (sep : UInt8) : GoString → List GoString
  | [] => [[]]
  | c :: cs =>
    if c = sep then [] :: stringsSplit sep cs
    else
      match stringsSplit sep cs with
      | [] => [[c]]
      | p :: ps => (c :: p) :: ps

/-- The call `strings.ReplaceAll(s, old, new)` for one-byte `old` and `new`. -/
def stringsReplaceAll (old new : UInt8) (s : GoString) : GoString :=
  s.map (fun c => if c = old then new else c)

/-- Byte `/`. -/
def slash : UInt8 := 47
/-- Byte `:`. -/
def colon : UInt8 := 58
/-- Byte `-`. -/
def dash : UInt8 := 45

/-! ## Volume names -/

/-- Source `sanitizeVolumeName` (worker.go 989-1016).

`familiar image` stands for the library calls
`reference.ParseNormalizedNamed(image)` followed by
`reference.FamiliarName(reference.TrimNamed(ref))`: it is `none` when the
reference does not parse and otherwise the familiar repository name. -/
def sanitizeVolumeName (familiar : GoString → Option GoString)
    (imageName digest : GoString) : GoString :=
  let repoName : GoString :=
    match familiar imageName with
    | some name => name
    | none => imageName
  let baseName := stringsReplaceAll slash dash repoName
  match stringsSplit colon digest with
  | [_, hash] =>
    let hash := if hash.length > 12 then hash.take 12 else hash
    baseName ++ [dash] ++ hash
  | _ => baseName ++ [dash] ++ stringsReplaceAll colon dash digest

/-! ## Regular expressions

The two patterns of `extractArtifactsAndSession` are compiled by Go's
`regexp` package.  The package decodes the text into runes, an invalid byte
counting as the rune U+FFFD of width one, and returns the leftmost match,
and among the matches that start there the one a backtracking search finds
first.  The patterns are concatenations of single-rune items, each taken
once, optionally (`?`), or repeated greedily (`*`, `+`), so that is the
fragment modelled here. -/

/-- A decoded rune with the bytes it was decoded from. -/
structure Tok where
  rune : Nat
  bytes : GoString
deriving DecidableEq

/-- The rune U+FFFD that stands for an invalid encoding. -/
def RuneError : Nat := 0xFFFD

/-- A UTF-8 continuation byte. -/
def isCont (b : UInt8) : Bool := decide (0x80 ≤ b.toNat) && decide (b.toNat ≤ 0xBF)

/-- Byte `b` lies in `lo..hi`. -/
def inRange (lo hi : Nat) (b : UInt8) : Bool := decide (lo ≤ b.toNat) && decide (b.toNat ≤ hi)

/-- The six payload bits of a continuation byte. -/
def low6 (b : UInt8) : Nat := b.toNat % 64

/-- The call `utf8.DecodeRuneInString` on the non-empty string `b0 :: rest`:
the first rune and its width in bytes. -/
def decodeRune (b0 : UInt8) (rest : GoString) : Nat × Nat :=
  let x := b0.toNat
  if x < 0x80 then (x, 1)
  else if 0xC2 ≤ x ∧ x ≤ 0xDF then
    match rest with
    | b1 :: _ => if isCont b1 then ((x % 32) * 64 + low6 b1, 2) else (RuneError, 1)
    | _ => (RuneError, 1)
  else if 0xE0 ≤ x ∧ x ≤ 0xEF then
    match rest with
    | b1 :: b2 :: _ =>
      let lo := if x = 0xE0 then 0xA0 else 0x80
      let hi := if x = 0xED then 0x9F else 0xBF
      if inRange lo hi b1 && isCont b2 then
        ((x % 16) * 4096 + low6 b1 * 64 + low6 b2, 3)
      else (RuneError, 1)
    | _ => (RuneError, 1)
  else if 0xF0 ≤ x ∧ x ≤ 0xF4 then
    match rest with
    | b1 :: b2 :: b3 :: _ =>
      let lo := if x = 0xF0 then 0x90 else 0x80
      let hi := if x = 0xF4 then 0x8F else 0xBF
      if inRange lo hi b1 && isCont b2 && isCont b3 then
        ((x % 8) * 262144 + low6 b1 * 4096 + low6 b2 * 64 + low6 b3, 4)
      else (RuneError, 1)
    | _ => (RuneError, 1)
  else (RuneError, 1)

/-- Decoding a string rune by rune; `fuel` bounds the number of runes. -/
def decodeAux : Nat → GoString → List Tok
  | 0, _ => []
  | _ + 1, [] => []
  | fuel + 1, b0 :: rest =>
    let w := (decodeRune b0 rest).2
    ⟨(decodeRune b0 rest).1, b0 :: rest.take (w - 1)⟩ :: decodeAux fuel (rest.drop (w - 1))

/-- The runes of a string.  A rune takes at least one byte, so the length of
the string is fuel enough (`text_decodeRunes`). -/
def decodeRunes (s : GoString) : List Tok := decodeAux s.length s

/-- The bytes spanned by a run of runes. -/
def text (ts : List Tok) : GoString := (ts.map Tok.bytes).flatten

/-- A pattern item that consumes one rune. -/
inductive Atom
  | lit (r : Nat)
  | dot
  | set (negated : Bool) (ranges : List (Nat × Nat))

/-- How often an item is taken. -/
inductive Quant
  | one
  | opt
  | star
  | plus

/-- An item with its repetition. -/
structure Piece where
  atom : Atom
  quant : Quant

/-- A compiled pattern: the flag `(?i)`, the items in order, and the number of
items that stand before capture group 1, which runs to the end of the pattern. -/
structure Regexp where
  foldCase : Bool
  pieces : List Piece
  group : Nat

/-- The ASCII runes in the case-folding orbit (`unicode.SimpleFold`) of `r`,
or `r` alone when there is none.  The patterns name ASCII runes only. -/
def asciiFold (r : Nat) : List Nat :=
  if 97 ≤ r ∧ r ≤ 122 then [r, r - 32]
  else if 65 ≤ r ∧ r ≤ 90 then [r, r + 32]
  else if r = 0x17F then [115, 83]
  else if r = 0x212A then [107, 75]
  else [r]

/-- Whether the item accepts the rune.  Under `(?i)` a literal accepts its
whole folding orbit and a bracket expression is closed under folding before
it is negated; `.` accepts every rune but the newline. -/
def Atom.accepts (foldCase : Bool) (a : Atom) (r : Nat) : Bool :=
  let cands := if foldCase then asciiFold r else [r]
  match a with
  | .lit c => cands.contains c
  | .dot => r != 10
  | .set negated ranges =>
    xor negated (cands.any (fun x => ranges.any (fun lh => decide (lh.1 ≤ x) && decide (x ≤ lh.2))))

/-- Greedy repetition with backtracking: give the item `n` runes, then `n - 1`,
and so on down to `lo`, and keep the first length at which the rest of the
pattern matches. -/
def tryLens (rest : List Tok → Option (List (List Tok))) (input : List Tok) (lo : Nat) :
    Nat → Option (List (List Tok))
  | 0 => if lo = 0 then (rest input).map (fun m => [] :: m) else none
  | n + 1 =>
    if n + 1 < lo then none
    else
      match rest (input.drop (n + 1)) with
      | some m => some (input.take (n + 1) :: m)
      | none => tryLens rest input lo n

/-- Match the items at the start of the input; the result lists the runes each
item consumed. -/
def matchPieces (foldCase : Bool) : List Piece → List Tok → Option (List (List Tok))
  | [], _ => some []
  | p :: ps, input =>
    let run := (input.takeWhile (fun t => p.atom.accepts foldCase t.rune)).length
    match p.quant with
    | .one => tryLens (matchPieces foldCase ps) input 1 (min run 1)
    | .opt => tryLens (matchPieces foldCase ps) input 0 (min run 1)
    | .star => tryLens (matchPieces foldCase ps) input 0 run
    | .plus => tryLens (matchPieces foldCase ps) input 1 run

/-- The call `re.FindStringSubmatch`: the leftmost match, per item. -/
def findSubmatch (re : Regexp) : List Tok → Option (List (List Tok))
  | [] => matchPieces re.foldCase re.pieces []
  | t :: ts =>
    match matchPieces re.foldCase re.pieces (t :: ts) with
    | some m => some m
    | none => findSubmatch re ts

/-- Successive non-overlapping leftmost matches; `skip` counts the runes of
the previous match still to be passed over. -/
def findAllAux (re : Regexp) : Nat → List Tok → List GoString
  | _, [] => []
  | skip + 1, _ :: ts => findAllAux re skip ts
  | 0, t :: ts =>
    match matchPieces re.foldCase re.pieces (t :: ts) with
    | some m => text m.flatten :: findAllAux re (m.flatten.length - 1) ts
    | none => findAllAux re 0 ts

/-- The call `re.FindAllString(s, -1)` for a pattern that matches no empty string. -/
def findAllString (re : Regexp) (s : GoString) : List GoString :=
  findAllAux re 0 (decodeRunes s)

/-- The items for a literal stretch of a pattern. -/
def lits (s : String) : List Piece := s.data.map (fun c => ⟨.lit c.toNat, .one⟩)

/-- The pattern of worker.go 681, a raw string literal holding
`(?i)session[^\\n]*(https?://[^\\s"'<>]+)`: in it `\\` is an escaped backslash,
so the first bracket expression excludes the backslash and `n`, the second
the backslash, `s`, both quotes and the angle brackets. -/
def sessionRe : Regexp :=
  { foldCase := true
    pieces := lits "session" ++ [⟨.set true [(92, 92), (110, 110)], .star⟩] ++ lits "http"
      ++ [⟨.lit 115, .opt⟩] ++ lits "://"
      ++ [⟨.set true [(92, 92), (115, 115), (34, 34), (39, 39), (60, 60), (62, 62)], .plus⟩]
    group := 8 }

/-- The bracket expression `[A-Za-z0-9_.-]`. -/
def prClass : Atom := .set false [(65, 90), (97, 122), (48, 57), (95, 95), (46, 46), (45, 45)]

/-- The pattern of worker.go 686, a raw string literal holding
`https://github\\.com/[A-Za-z0-9_.-]+/[A-Za-z0-9_.-]+/pull/\\d+`: after `github`
it asks for a backslash and any rune, and after `/pull/` for a backslash and
a run of the letter `d`. -/
def prRe : Regexp :=
  { foldCase := false
    pieces := lits "https://github" ++ [⟨.lit 92, .one⟩, ⟨.dot, .one⟩] ++ lits "com/"
      ++ [⟨prClass, .plus⟩] ++ lits "/" ++ [⟨prClass, .plus⟩] ++ lits "/pull/"
      ++ [⟨.lit 92, .one⟩, ⟨.lit 100, .plus⟩]
    group := 0 }

/-! ## JSON strings

Everything the worker hands on as JSON goes through `json.Marshal`.  A JSON
document is given here by its content: a string member by the text the JSON
string stands for, which is what a reader of the document gets. -/

/-- The rune U+FFFD in UTF-8. -/
def replacementChar : GoString := [0xEF, 0xBF, 0xBD]

/-- The text of the JSON string that `json.Marshal` writes for a Go string
(`encoding/json`, `appendString`): the string is decoded rune by rune, a byte
that starts no valid encoding is written as `\ufffd`, the rune U+FFFD, and
every other rune is written as itself or as an escape that stands for it. -/
def jsonString (s : GoString) : GoString :=
  ((decodeRunes s).map (fun t =>
    if t.rune = RuneError ∧ t.bytes.length = 1 then replacementChar else t.bytes)).flatten

/-- The call `utf8.ValidString`: no byte of the string decodes as an invalid
encoding. -/
def validString (s : GoString) : Bool :=
  (decodeRunes s).all (fun t => !(t.rune == RuneError && t.bytes.length == 1))

/-! ## Artifact extraction -/

/-- Source `prData`. -/
structure prData where
  Branch : GoString
  URL : GoString
deriving DecidableEq

/-- Source `prArtifact`. -/
structure prArtifact where
  ArtifactType : GoString
  CreatedAt : GoString
  Data : prData
deriving DecidableEq

/-- A `json.RawMessage` holding artifacts: `nil`, or a JSON array of objects
with the members `artifact_type`, `created_at` and `data`, the last with the
members `branch` and `url`; the array is given by the texts of these members,
object by object. -/
abbrev RawArtifacts := Option (List prArtifact)

/-- The call `json.Marshal(artifacts)` of worker.go 720, which cannot fail for
this type: every string member is written as a JSON string. -/
def jsonMarshalArtifacts (artifacts : List prArtifact) : List prArtifact :=
  artifacts.map (fun a =>
    { ArtifactType := jsonString a.ArtifactType
      CreatedAt := jsonString a.CreatedAt
      Data := { Branch := jsonString a.Data.Branch, URL := jsonString a.Data.URL } })

/-- The loop of worker.go 701-714 over the matches `raw`, with the set `seen`
and the slice `artifacts` built so far. -/
def collectArtifacts (now : GoString) :
    List GoString → List GoString → List prArtifact → List prArtifact
  | [], _, artifacts => artifacts
  | u :: raw, seen, artifacts =>
    if seen.contains u then collectArtifacts now raw seen artifacts
    else
      collectArtifacts now raw (u :: seen)
        (artifacts ++ [⟨str "PULL_REQUEST", now, ⟨str "unknown", u⟩⟩])

/-- Source `extractArtifactsAndSession` (worker.go 674-725); `now` is
`time.Now().UTC().Format(time.RFC3339)`.  `FindStringSubmatch` returns two
strings exactly when the pattern matches, the second being group 1.
`json.Marshal` of the artifacts cannot fail, so its error branch is left out. -/
def extractArtifactsAndSession (now : GoString) (output : GoString) : RawArtifacts × GoString :=
  if output = [] then (none, [])
  else
    let sessionLink : GoString :=
      match findSubmatch sessionRe (decodeRunes output) with
      | some m => text (m.drop sessionRe.group).flatten
      | none => []
    let raw := findAllString prRe output
    let artifacts := collectArtifacts now raw [] []
    if artifacts.length = 0 then (none, sessionLink)
    else (some (jsonMarshalArtifacts artifacts), sessionLink)

/-- The output text of the specification's artifact-extraction scenario. -/
def scenarioOutput : GoString :=
  str "see session http://x/a and https://github.com/o/r/pull/7 and https://github.com/o/r/pull/7"

/-! ## The container runtime and the control-plane channel -/

/-- The fields of `container.Config` the worker sets. -/
structure ContainerConfig where
  Image : GoString
  Cmd : List GoString
  Env : List GoString := []
  WorkingDir : GoString := []
  User : GoString := []
  Entrypoint : List GoString := []
  StdinOnce : Bool := false
  OpenStdin : Bool := false
  AttachStdin : Bool := false
  AttachStdout : Bool := false
  AttachStderr : Bool := false
deriving DecidableEq

/-- The fields of `container.HostConfig` the worker sets. -/
structure HostConfig where
  Binds : List GoString := []
  AutoRemove : Bool := false
deriving DecidableEq

/-- A call of the Docker client, with the arguments that vary. -/
inductive Call
  | ImagePull (image platform registryAuth : GoString)
  | ImageInspect (image : GoString)
  | VolumeInspect (name : GoString)
  | VolumeCreate (name : GoString)
  | VolumeRemove (name : GoString) (force : Bool)
  | ContainerCreate (config : ContainerConfig) (host : HostConfig)
  | ContainerExport (id : GoString)
  | ContainerAttach (id : GoString)
  | ContainerStart (id : GoString)
  | ContainerWait (id : GoString)
  | ContainerLogs (id : GoString)
  | CopyFromContainer (id path : GoString)
  | ContainerRemove (id : GoString) (force : Bool)
deriving DecidableEq

/-- A status frame as `sendMessage` gets it: the JSON document that the two
`json.Marshal` calls of `sendTaskClaimed`, `sendTaskFailed` and
`sendTaskCompleted` produce from a `types.TaskClaimedMessage`,
`types.TaskFailedMessage` or `types.TaskCompletedMessage` wrapped in a
`types.WebSocketMessage` of the matching type.  The document is given by its
type and by the content of the members of its data object: a string member
by the text of its JSON string (`jsonString` of the Go string), the exit code
by its number, the artifacts by the embedded document.  Package `types`, which
names the members, is not among the sources. -/
inductive Frame
  | claimed (TaskID WorkerID : GoString)
  | failed (TaskID Message Output : GoString) (Artifacts : RawArtifacts) (SessionLink : GoString)
  | completed (TaskID WorkerID Output : GoString) (ExitCode : Int) (Artifacts : RawArtifacts)
      (SessionLink : GoString)
deriving DecidableEq

/-- How the `select` of `sendMessage` resolves. -/
inductive SendAnswer
  | enqueued
  | timeout
  | cancelled
deriving DecidableEq

/-- Source `types.SidecarMount`. -/
structure SidecarMount where
  Image : GoString
  MountPath : GoString
  ReadWrite : Bool
deriving DecidableEq

/-- The fields of `types.Task` the worker reads. -/
structure Task where
  ID : GoString
  Title : GoString
  EnvironmentID : Option GoString
deriving DecidableEq

/-- Source `types.TaskAssignmentMessage`; `EnvVars` lists the map in the
order the `range` loop visits it. -/
structure TaskAssignmentMessage where
  TaskID : GoString
  Task : Task
  DockerImage : GoString
  SidecarImage : GoString
  AdditionalSidecars : List SidecarMount
  EnvVars : List (GoString × GoString)
deriving DecidableEq

/-- What the program does that can be seen from outside, in order: a call of
the Docker client; a call of `sendMessage` with the frame and how its
`select` resolved; the statement `w.activeTasks[taskID] = taskCancel`; the
statement `go w.executeTask(taskCtx, assignment)`; the deferred
`delete(w.activeTasks, taskID)`; a call of `connect` and whether it
succeeded; `time.Sleep(d)` with `d` in nanoseconds; a call of `run` that has
returned. -/
inductive Event
  | docker (c : Call)
  | send (f : Frame) (a : SendAnswer)
  | track (taskID : GoString) (cancel : Nat)
  | spawn (taskID : GoString) (cancel : Nat)
  | untrack (taskID : GoString)
  | dial (ok : Bool)
  | sleep (d : Nat)
  | run
deriving DecidableEq

/-- The worker, the container runtime it talks to, and the record of what has
happened.

* `reconnectDelay`, `sendChan`, `activeTasks` are the fields of the Go struct
  `Worker`: the delay in nanoseconds, the messages the channel has accepted
  (oldest first), and the map from task id to cancel function, a cancel
  function being known by the number `context.WithCancel` gave it.
* `volumes` are the named volumes that exist in the runtime.
* `nextCancel` numbers the cancel functions; `executors` are the goroutines
  running `executeTask` that have not returned, each with the number of its
  task context. -/
structure State where
  reconnectDelay : Nat
  sendChan : List Frame
  activeTasks : List (GoString × Nat)
  volumes : List GoString
  nextCancel : Nat
  executors : List (Nat × TaskAssignmentMessage)
  trace : List Event

/-- What `ImagePull` and the read of its stream come to. -/
inductive PullAnswer
  | ok
  | pullError (e : GoString)
  | readError (e : GoString)

/-- What the channels of `ContainerWait` deliver: an error, a nil on the
error channel, or an exit status. -/
inductive WaitAnswer
  | error (e : GoString)
  | nilError
  | status (code : Int)

/-- One step of reading the tar stream of `CopyFromContainer`: a header, with
whether it is a regular file and what `io.ReadAll` gives for it, or an error
of `Next`. -/
inductive TarNext
  | header (regular : Bool) (content : Except GoString GoString)
  | error (e : GoString)

/-- Source `Config`. -/
structure Config where
  APIKey : GoString
  WorkerID : GoString
  WebSocketURL : GoString
  ServerRootURL : GoString
  LogLevel : GoString
  NoCleanup : Bool
  Volumes : List GoString

/-- Everything the worker gets from outside: its configuration and platform,
the answers of the Docker daemon (each may depend on all that happened
before), how each send resolves, and the library functions that are not part
of the repository. -/
structure Env where
  config : Config
  platform : GoString
  imagePull : State → GoString → GoString → PullAnswer
  imageInspect : State → GoString → Except GoString (List GoString × GoString)
  volumeCreate : State → GoString → Option GoString
  volumeRemove : State → GoString → Option GoString
  containerCreate : State → ContainerConfig → HostConfig → Except GoString GoString
  containerExport : State → GoString → Option GoString
  containerAttach : State → GoString → Option GoString
  containerStart : State → GoString → Option GoString
  containerWait : State → GoString → WaitAnswer
  containerLogs : State → GoString → Except GoString GoString
  copyFromContainer : State → GoString → GoString → Except GoString (List TarNext)
  sendAnswer : State → Frame → SendAnswer
  familiar : GoString → Option GoString
  registryAuth : GoString → GoString
  augmentArgs : Task → List GoString → List GoString
  now : GoString

/-- Record a call of the Docker client. -/
def State.call (s : State) (c : Call) : State :=
  { s with trace := s.trace ++ [Event.docker c] }

/-- Source `ExecutionResult`. -/
structure ExecutionResult where
  Output : GoString
  Artifacts : RawArtifacts
  SessionLink : GoString
  ExitCode : Int
deriving DecidableEq

/-- Source `pullImage` (worker.go 381-403). -/
def pullImage (env : Env) (s : State) (imageName authStr : GoString) : Option GoString × State :=
  let s1 := s.call (.ImagePull imageName env.platform authStr)
  match env.imagePull s imageName authStr with
  | .pullError e => (some (str "failed to pull image " ++ imageName ++ str ": " ++ e), s1)
  | .readError e => (some (str "failed to read image pull output: " ++ e), s1)
  | .ok => (none, s1)

/-- Source `getImageDigest` (worker.go 1019-1040). -/
def getImageDigest (env : Env) (s : State) (imageName : GoString) :
    Except GoString GoString × State :=
  let s1 := s.call (.ImageInspect imageName)
  match env.imageInspect s imageName with
  | .error e => (.error (str "failed to inspect image " ++ imageName ++ str ": " ++ e), s1)
  | .ok (repoDigests, id) =>
    let fromRepo : Option GoString :=
      match repoDigests with
      | first :: _ =>
        match stringsSplit 64 first with
        | [_, d] => some d
        | _ => none
      | [] => none
    match fromRepo with
    | some d => (.ok d, s1)
    | none =>
      if id ≠ [] then (.ok id, s1)
      else (.error (str "no digest found for image " ++ imageName), s1)

/-- Source `getContainerLogs` (worker.go 621-642). -/
def getContainerLogs (env : Env) (s : State) (containerID : GoString) :
    (GoString × Option GoString) × State :=
  let s1 := s.call (.ContainerLogs containerID)
  match env.containerLogs s containerID with
  | .error e => (([], some e), s1)
  | .ok out => ((out, none), s1)

/-- The loop of `copyTextFileFromContainer` over the tar stream. -/
def firstRegularFile : List TarNext → GoString × Option GoString
  | [] => ([], some (str "no file in tar stream"))
  | .error e :: _ => ([], some e)
  | .header false _ :: rest => firstRegularFile rest
  | .header true (.error e) :: _ => ([], some e)
  | .header true (.ok b) :: _ => (b, none)

/-- Source `copyTextFileFromContainer` (worker.go 644-672). -/
def copyTextFileFromContainer (env : Env) (s : State) (containerID path : GoString) :
    (GoString × Option GoString) × State :=
  let s1 := s.call (.CopyFromContainer containerID path)
  match env.copyFromContainer s containerID path with
  | .error e => (([], some e), s1)
  | .ok tr => (firstRegularFile tr, s1)

/-- The call `VolumeInspect`: it finds the volumes that exist. -/
def volumeInspect (s : State) (name : GoString) : Bool × State :=
  (s.volumes.contains name, s.call (.VolumeInspect name))

/-- The call `VolumeCreate`: when the daemon accepts it the volume exists afterwards. -/
def volumeCreate (env : Env) (s : State) (name : GoString) : Option GoString × State :=
  let s1 := s.call (.VolumeCreate name)
  match env.volumeCreate s name with
  | some e => (some e, s1)
  | none => (none, { s1 with volumes := if s1.volumes.contains name then s1.volumes
                                        else name :: s1.volumes })

/-- The call `VolumeRemove`: when the daemon accepts it the volume is gone afterwards. -/
def volumeRemove (env : Env) (s : State) (name : GoString) (force : Bool) :
    Option GoString × State :=
  let s1 := s.call (.VolumeRemove name force)
  match env.volumeRemove s name with
  | some e => (some e, s1)
  | none => (none, { s1 with volumes := s1.volumes.filter (fun v => v != name) })

/-- The call `ContainerCreate`. -/
def containerCreate (env : Env) (s : State) (config : ContainerConfig) (host : HostConfig) :
    Except GoString GoString × State :=
  (env.containerCreate s config host, s.call (.ContainerCreate config host))

/-- Source `copySidecarFilesystemToVolume` (worker.go 731-834).  The goroutine
that pipes the export stream into the extraction container moves data only
and is left out. -/
def copySidecarFilesystemToVolume (env : Env) (s : State) (sidecarImage volumeName : GoString) :
    Option GoString × State :=
  let sidecarConfig : ContainerConfig := { Image := sidecarImage, Cmd := [str "true"] }
  let sidecarHostConfig : HostConfig := { AutoRemove := true }
  match containerCreate env s sidecarConfig sidecarHostConfig with
  | (.error e, s1) => (some (str "failed to create sidecar container: " ++ e), s1)
  | (.ok sidecarContainerID, s1) =>
    let s2 := s1.call (.ContainerExport sidecarContainerID)
    match env.containerExport s1 sidecarContainerID with
    | some e => (some (str "failed to export sidecar container: " ++ e), s2)
    | none =>
      let extractConfig : ContainerConfig :=
        { Image := sidecarImage
          User := str "root"
          Entrypoint := [str "/bin/sh", str "-c"]
          Cmd := [str "tar -x -C /target"]
          StdinOnce := true
          OpenStdin := true
          AttachStdin := true
          AttachStdout := true
          AttachStderr := true }
      let extractHostConfig : HostConfig :=
        { AutoRemove := true, Binds := [volumeName ++ str ":/target"] }
      match containerCreate env s2 extractConfig extractHostConfig with
      | (.error e, s3) => (some (str "failed to create extraction container: " ++ e), s3)
      | (.ok extractContainerID, s3) =>
        let s4 := s3.call (.ContainerAttach extractContainerID)
        match env.containerAttach s3 extractContainerID with
        | some e => (some (str "failed to attach to extraction container: " ++ e), s4)
        | none =>
          let s5 := s4.call (.ContainerStart extractContainerID)
          match env.containerStart s4 extractContainerID with
          | some e => (some (str "failed to start extraction container: " ++ e), s5)
          | none =>
            let s6 := s5.call (.ContainerWait extractContainerID)
            match env.containerWait s5 extractContainerID with
            | .error e => (some (str "error waiting for extraction container: " ++ e), s6)
            | .nilError => (none, s6)
            | .status code =>
              if code ≠ 0 then
                match getContainerLogs env s6 extractContainerID with
                | ((logOutput, _), s7) =>
                  (some (str "extraction container exited with status " ++ str (toString code)
                    ++ str ". Logs: " ++ logOutput), s7)
              else (none, s6)

/-- The loop of `prepareAdditionalSidecars` (worker.go 842-893) over the
sidecars still to prepare, with `binds` and `seenMountPaths` as built so far. -/
def prepareSidecarsLoop (env : Env) :
    List SidecarMount → List GoString → List GoString → State →
      Except GoString (List GoString) × State
  | [], binds, _, s => (.ok binds, s)
  | sidecar :: rest, binds, seenMountPaths, s =>
    if sidecar.Image = [] then (.error (str "additional sidecar has empty image"), s)
    else if sidecar.MountPath = [] then
      (.error (str "additional sidecar " ++ sidecar.Image ++ str " has empty mount path"), s)
    else if seenMountPaths.contains sidecar.MountPath then
      (.error (str "duplicate mount path " ++ sidecar.MountPath
        ++ str " for additional sidecar " ++ sidecar.Image), s)
    else
      let seenMountPaths := sidecar.MountPath :: seenMountPaths
      match pullImage env s sidecar.Image [] with
      | (some e, s1) =>
        (.error (str "failed to pull additional sidecar image " ++ sidecar.Image ++ str ": " ++ e),
          s1)
      | (none, s1) =>
        match getImageDigest env s1 sidecar.Image with
        | (.error e, s2) =>
          (.error (str "failed to get digest for additional sidecar image " ++ sidecar.Image
            ++ str ": " ++ e), s2)
        | (.ok digest, s2) =>
          let volumeName := sanitizeVolumeName env.familiar sidecar.Image digest
          let mode := if sidecar.ReadWrite then [] else str ":ro"
          let bind := volumeName ++ str ":" ++ sidecar.MountPath ++ mode
          match volumeInspect s2 volumeName with
          | (true, s3) => prepareSidecarsLoop env rest (binds ++ [bind]) seenMountPaths s3
          | (false, s3) =>
            match volumeCreate env s3 volumeName with
            | (some e, s4) =>
              (.error (str "failed to create volume for additional sidecar " ++ sidecar.Image
                ++ str ": " ++ e), s4)
            | (none, s4) =>
              match copySidecarFilesystemToVolume env s4 sidecar.Image volumeName with
              | (some e, s5) =>
                (.error (str "failed to copy additional sidecar " ++ sidecar.Image
                  ++ str " to volume: " ++ e), (volumeRemove env s5 volumeName false).2)
              | (none, s5) => prepareSidecarsLoop env rest (binds ++ [bind]) seenMountPaths s5

/-- Source `prepareAdditionalSidecars` (worker.go 838-895). -/
def prepareAdditionalSidecars (env : Env) (s : State) (sidecars : List SidecarMount) :
    Except GoString (List GoString) × State :=
  prepareSidecarsLoop env sidecars [] [] s

/-- The result `executeTaskInDocker` starts from (worker.go 448). -/
def initialResult : ExecutionResult :=
  { Output := [], Artifacts := none, SessionLink := [], ExitCode := -1 }

/-- The end of `executeTaskInDocker` (worker.go 610-618): choose the output,
extract artifacts and session link from it. -/
def captureOutput (env : Env) (s : State) (result : ExecutionResult)
    (containerID logOutput : GoString) : (ExecutionResult × Option GoString) × State :=
  match copyTextFileFromContainer env s containerID (str "/workspace/.oz/agent_output.txt") with
  | ((txt, err), s1) =>
    let output := if err = none ∧ txt ≠ [] then txt else logOutput
    let extracted := extractArtifactsAndSession env.now output
    (({ result with Output := output, Artifacts := extracted.1, SessionLink := extracted.2 },
      none), s1)

/-- The part of `executeTaskInDocker` that runs once the container exists
(worker.go 576-618), without the deferred removal. -/
def runCreatedContainer (env : Env) (s : State) (result : ExecutionResult)
    (containerID : GoString) : (ExecutionResult × Option GoString) × State :=
  let s1 := s.call (.ContainerStart containerID)
  match env.containerStart s containerID with
  | some e => ((result, some (str "failed to start container: " ++ e)), s1)
  | none =>
    let s2 := s1.call (.ContainerWait containerID)
    match env.containerWait s1 containerID with
    | .error e => ((result, some (str "error waiting for container: " ++ e)), s2)
    | .nilError => captureOutput env s2 result containerID []
    | .status code =>
      match getContainerLogs env s2 containerID with
      | ((logOutput, _), s3) =>
        captureOutput env s3 { result with ExitCode := code } containerID logOutput

/-- The deferred function of worker.go 568-574. -/
def removeContainer (env : Env) (s : State) (containerID : GoString) : State :=
  if containerID ≠ [] ∧ env.config.NoCleanup = false then
    s.call (.ContainerRemove containerID true)
  else s

/-- The sidecar volume of `executeTaskInDocker` (worker.go 484-505): reuse the
volume of that name, or create it and fill it from the sidecar image. -/
def prepareSidecarVolume (env : Env) (s : State) (sidecarImage volumeName : GoString) :
    Option GoString × State :=
  match volumeInspect s volumeName with
  | (true, s1) => (none, s1)
  | (false, s1) =>
    match volumeCreate env s1 volumeName with
    | (some e, s2) => (some (str "failed to create volume: " ++ e), s2)
    | (none, s2) =>
      match copySidecarFilesystemToVolume env s2 sidecarImage volumeName with
      | (some e, s3) => (some (str "failed to copy sidecar to volume: " ++ e), s3)
      | (none, s3) => (none, s3)

/-- The container of `executeTaskInDocker` (worker.go 513-558): command,
environment, working directory and binds. -/
def taskContainer (env : Env) (assignment : TaskAssignmentMessage)
    (imageName volumeName : GoString) (additionalSidecarBinds : List GoString) :
    ContainerConfig × HostConfig :=
  let task := assignment.Task
  let envVars : List GoString :=
    [str "TASK_ID=" ++ task.ID, str "GIT_TERMINAL_PROMPT=0", str "GH_PROMPT_DISABLED=1"]
      ++ assignment.EnvVars.map (fun kv => kv.1 ++ str "=" ++ kv.2)
  let cmd : List GoString :=
    [str "/bin/sh", str "/agent/entrypoint.sh", str "agent", str "run", str "--share",
     str "team:edit", str "--task-id", task.ID, str "--sandboxed", str "--server-root-url",
     env.config.ServerRootURL]
  let cmd := env.augmentArgs task cmd
  let binds := [volumeName ++ str ":/agent:ro"] ++ additionalSidecarBinds ++ env.config.Volumes
  ({ Image := imageName, Cmd := cmd, Env := envVars, WorkingDir := str "/workspace" },
   { Binds := binds })

/-- Source `executeTaskInDocker` (worker.go 445-619). -/
def executeTaskInDocker (env : Env) (s : State) (assignment : TaskAssignmentMessage) :
    (ExecutionResult × Option GoString) × State :=
  let result := initialResult
  let imageName :=
    if assignment.DockerImage ≠ [] then assignment.DockerImage else str "ubuntu:22.04"
  let authStr := env.registryAuth imageName
  match pullImage env s imageName authStr with
  | (some e, s1) => ((result, some e), s1)
  | (none, s1) =>
    if assignment.SidecarImage = [] then
      ((result, some (str "no sidecar image specified in assignment")), s1)
    else
      match pullImage env s1 assignment.SidecarImage [] with
      | (some e, s2) => ((result, some e), s2)
      | (none, s2) =>
        match getImageDigest env s2 assignment.SidecarImage with
        | (.error e, s3) =>
          ((result, some (str "failed to get sidecar image digest: " ++ e)), s3)
        | (.ok sidecarDigest, s3) =>
          let volumeName := sanitizeVolumeName env.familiar assignment.SidecarImage sidecarDigest
          match prepareSidecarVolume env s3 assignment.SidecarImage volumeName with
          | (some e, s4) => ((result, some e), s4)
          | (none, s4) =>
            match prepareAdditionalSidecars env s4 assignment.AdditionalSidecars with
            | (.error e, s5) => ((result, some e), s5)
            | (.ok additionalSidecarBinds, s5) =>
              let c := taskContainer env assignment imageName volumeName additionalSidecarBinds
              match containerCreate env s5 c.1 c.2 with
              | (.error e, s6) => ((result, some (str "failed to create container: " ++ e)), s6)
              | (.ok containerID, s6) =>
                match runCreatedContainer env s6 result containerID with
                | (r, s7) => (r, removeContainer env s7 containerID)

/-! ## Status frames -/

/-- Source `sendMessage` (worker.go 976-985). -/
def sendMessage (env : Env) (s : State) (message : Frame) : Option GoString × State :=
  let a := env.sendAnswer s message
  let s1 := { s with trace := s.trace ++ [Event.send message a] }
  match a with
  | .enqueued => (none, { s1 with sendChan := s1.sendChan ++ [message] })
  | .timeout => (some (str "timeout sending message"), s1)
  | .cancelled => (some (str "worker context cancelled"), s1)

/-- Source `sendTaskClaimed` (worker.go 897-919).  Neither `json.Marshal` can
fail: the message holds strings only, and the data of the envelope is the
document just written. -/
def sendTaskClaimed (env : Env) (s : State) (taskID : GoString) : Option GoString × State :=
  sendMessage env s (.claimed (jsonString taskID) (jsonString env.config.WorkerID))

/-- Source `sendTaskFailed` (worker.go 921-946).  Neither `json.Marshal` can
fail: the artifacts are `nil` or a document `json.Marshal` wrote. -/
def sendTaskFailed (env : Env) (s : State) (taskID message output : GoString)
    (artifacts : RawArtifacts) (sessionLink : GoString) : Option GoString × State :=
  sendMessage env s
    (.failed (jsonString taskID) (jsonString message) (jsonString output) artifacts
      (jsonString sessionLink))

/-- Source `sendTaskCompleted` (worker.go 948-974).  Neither `json.Marshal` can
fail: the artifacts are `nil` or a document `json.Marshal` wrote. -/
def sendTaskCompleted (env : Env) (s : State) (taskID output : GoString) (exitCode : Int)
    (artifacts : RawArtifacts) (sessionLink : GoString) : Option GoString × State :=
  sendMessage env s
    (.completed (jsonString taskID) (jsonString env.config.WorkerID) (jsonString output) exitCode
      artifacts (jsonString sessionLink))

/-! ## Task lifecycle -/

/-- The statement `w.activeTasks[taskID] = taskCancel`. -/
def mapSet (m : List (GoString × Nat)) (taskID : GoString) (cancel : Nat) :
    List (GoString × Nat) :=
  (taskID, cancel) :: m.filter (fun e => e.1 != taskID)

/-- The statement `delete(w.activeTasks, taskID)`. -/
def mapDelete (m : List (GoString × Nat)) (taskID : GoString) : List (GoString × Nat) :=
  m.filter (fun e => e.1 != taskID)

/-- The expression `w.activeTasks[taskID]`, with whether the key is present. -/
def mapGet (m : List (GoString × Nat)) (taskID : GoString) : Option Nat :=
  (m.find? (fun e => e.1 == taskID)).map (fun e => e.2)

/-- Source `handleTaskAssignment` (worker.go 333-348). -/
def handleTaskAssignment (env : Env) (s : State) (assignment : TaskAssignmentMessage) : State :=
  let s1 := (sendTaskClaimed env s assignment.TaskID).2
  let taskCancel := s1.nextCancel
  let s2 := { s1 with nextCancel := s1.nextCancel + 1 }
  let s3 := { s2 with
    activeTasks := mapSet s2.activeTasks assignment.TaskID taskCancel
    trace := s2.trace ++ [Event.track assignment.TaskID taskCancel] }
  { s3 with
    executors := s3.executors ++ [(taskCancel, assignment)]
    trace := s3.trace ++ [Event.spawn assignment.TaskID taskCancel] }

/-- The deferred function of `executeTask` (worker.go 351-355), run when the
goroutine started with the task context `cancel` returns. -/
def releaseTask (s : State) (cancel : Nat) (assignment : TaskAssignmentMessage) : State :=
  { s with
    activeTasks := mapDelete s.activeTasks assignment.TaskID
    executors := s.executors.erase (cancel, assignment)
    trace := s.trace ++ [Event.untrack assignment.TaskID] }

/-- The body of `executeTask` after the executor has returned `(result, err)`
(worker.go 361-376). -/
def reportResult (env : Env) (s : State) (taskID : GoString) (result : ExecutionResult)
    (err : Option GoString) : State :=
  match err with
  | some e =>
    (sendTaskFailed env s taskID (str "Task failed: " ++ e) result.Output result.Artifacts
      result.SessionLink).2
  | none =>
    (sendTaskCompleted env s taskID result.Output result.ExitCode result.Artifacts
      result.SessionLink).2

/-- Source `executeTask` (worker.go 350-377), for the goroutine whose task
context is `cancel`. -/
def executeTask (env : Env) (s : State) (cancel : Nat) (assignment : TaskAssignmentMessage) :
    State :=
  match executeTaskInDocker env s assignment with
  | ((result, err), s1) =>
    releaseTask (reportResult env s1 assignment.TaskID result err) cancel assignment

/-! ## Reconnecting -/

/-- Source `InitialReconnectDelay`, in nanoseconds. -/
def InitialReconnectDelay : Nat := 1 * 1000000000

/-- Source `MaxReconnectDelay`, in nanoseconds. -/
def MaxReconnectDelay : Nat := 60 * 1000000000

/-- The conversion `float64(n)` of a non-negative integer: the nearest number
with 53 significant bits, ties going to the even one. -/
def toFloat64 (n : Nat) : Nat :=
  if n < 2 ^ 53 then n
  else
    let e := Nat.log2 n - 52
    let q := n / 2 ^ e
    let r := n % 2 ^ e
    let q := if r > 2 ^ (e - 1) ∨ (r = 2 ^ (e - 1) ∧ q % 2 = 1) then q + 1 else q
    q * 2 ^ e

/-- The update of worker.go 141,
`min(time.Duration(float64(w.reconnectDelay)*ReconnectBackoffRate), MaxReconnectDelay)`,
for a delay below `2 ^ 62` ns: the product with 2.0 is exact and fits a
`time.Duration`. -/
def nextReconnectDelay (d : Nat) : Nat :=
  min (toFloat64 d * 2) MaxReconnectDelay

/-- What one turn of the loop of `Start` meets: the worker context is done,
`connect` fails, or `connect` succeeds and `run` returns later. -/
inductive Round
  | cancelled
  | dialFailed
  | session
deriving DecidableEq

/-- Source `Start` (worker.go 128-149), run over the turns given; it returns
when the context is done. -/
def Start (s : State) : List Round → State
  | [] => s
  | .cancelled :: _ => s
  | .dialFailed :: rest =>
    Start { s with
      trace := s.trace ++ [Event.dial false, Event.sleep s.reconnectDelay]
      reconnectDelay := nextReconnectDelay s.reconnectDelay } rest
  | .session :: rest =>
    Start { s with
      trace := s.trace ++ [Event.dial true, Event.run]
      reconnectDelay := InitialReconnectDelay } rest

/-- The worker as `New` builds it (worker.go 116-125), before a runtime that
holds the given volumes. -/
def New (volumes : List GoString) : State :=
  { reconnectDelay := InitialReconnectDelay
    sendChan := []
    activeTasks := []
    volumes := volumes
    nextCancel := 0
    executors := []
    trace := [] }

/-! ## The lifecycle as a sequence of events -/

/-- What the lifecycle manager meets: `handleTaskAssignment` is called with an
assignment, or the goroutine that runs `executeTask` under the task context
`cancel` runs to its end. -/
inductive LifecycleEvent
  | assign (assignment : TaskAssignmentMessage)
  | finish (cancel : Nat) (assignment : TaskAssignmentMessage)

/-- The worker after a sequence of lifecycle events; only an executor that is
running can finish. -/
def lifecycle (env : Env) : State → List LifecycleEvent → State
  | s, [] => s
  | s, .assign assignment :: rest => lifecycle env (handleTaskAssignment env s assignment) rest
  | s, .finish cancel assignment :: rest =>
    if (cancel, assignment) ∈ s.executors then
      lifecycle env (executeTask env s cancel assignment) rest
    else lifecycle env s rest

/-! ## Vocabulary of the statements -/

/-- A call that does not create the task container: every container the
worker creates besides it has no working directory. -/
def Call.notTaskContainer : Call → Prop
  | .ContainerCreate config _ => config.WorkingDir = []
  | _ => True

/-- From `s` to `s'` the program has only talked to the Docker daemon, by
calls that satisfy `P`: the worker itself is unchanged and the trace has
grown by those calls. -/
def DockerOnly (P : Call → Prop) (s s' : State) : Prop :=
  s'.reconnectDelay = s.reconnectDelay ∧ s'.sendChan = s.sendChan ∧
  s'.activeTasks = s.activeTasks ∧ s'.nextCancel = s.nextCancel ∧
  s'.executors = s.executors ∧
  ∃ cs : List Call, s'.trace = s.trace ++ cs.map Event.docker ∧ ∀ c ∈ cs, P c

/-- The table and the running executors agree: each running executor has its
cancel function in the table under its task id, each entry of the table is
that of a running executor, and the cancel functions of the running
executors are distinct and already handed out. -/
def TableInv (s : State) : Prop :=
  (∀ c a, (c, a) ∈ s.executors → mapGet s.activeTasks a.TaskID = some c) ∧
  (∀ t c, mapGet s.activeTasks t = some c → ∃ a, (c, a) ∈ s.executors ∧ a.TaskID = t) ∧
  (∀ c a, (c, a) ∈ s.executors → c < s.nextCancel) ∧
  (s.executors.map Prod.fst).Nodup

/-- The image of the task container (worker.go 450-462). -/
def taskImage (assignment : TaskAssignmentMessage) : GoString :=
  if assignment.DockerImage ≠ [] then assignment.DockerImage else str "ubuntu:22.04"

/-- The executor, started in `s`, has got through its preparations (worker.go
464-511) and stands in `s5` before the creation of the task container: both
pulls succeeded, a sidecar image is named, its digest was read, the volume
`volumeName` named after image and digest is there, and the additional
sidecars gave `binds`.  Each step starts in the state the step before it
ended in, so `volumeName`, `binds` and `s5` are determined by `env`, `s` and
the assignment. -/
def Prepared (env : Env) (s : State) (assignment : TaskAssignmentMessage)
    (volumeName : GoString) (binds : List GoString) (s5 : State) : Prop :=
  ∃ (s1 s2 : State) (sidecarDigest : GoString) (s3 s4 : State),
    pullImage env s (taskImage assignment) (env.registryAuth (taskImage assignment)) =
      (none, s1) ∧
    assignment.SidecarImage ≠ [] ∧
    pullImage env s1 assignment.SidecarImage [] = (none, s2) ∧
    getImageDigest env s2 assignment.SidecarImage = (.ok sidecarDigest, s3) ∧
    volumeName = sanitizeVolumeName env.familiar assignment.SidecarImage sidecarDigest ∧
    prepareSidecarVolume env s3 assignment.SidecarImage volumeName = (none, s4) ∧
    prepareAdditionalSidecars env s4 assignment.AdditionalSidecars = (.ok binds, s5)

/-- The executor, started in `s`, has created the task container, the daemon
has answered with the id `id`, and the executor stands in `s6` before it
starts the container (worker.go 560-566). -/
def TaskContainerCreated (env : Env) (s : State) (assignment : TaskAssignmentMessage)
    (id : GoString) (s6 : State) : Prop :=
  ∃ (volumeName : GoString) (binds : List GoString) (s5 : State),
    Prepared env s assignment volumeName binds s5 ∧
    containerCreate env s5
      (taskContainer env assignment (taskImage assignment) volumeName binds).1
      (taskContainer env assignment (taskImage assignment) volumeName binds).2 = (.ok id, s6)

/-! ## A concrete daemon and assignment -/

/-- A daemon that accepts every call and reports the digest
`sha256:aaaaaaaaaaaabbbbcccc` for every image; the container that extracts a
sidecar into its volume exits with `extractStatus`, the task container with 0
and without an output file.  The images used with it (`x/sidecar`, `y/xvfb`,
`z/xvfb`) are their own familiar repository names. -/
def scenarioEnv (extractStatus : Int) : Env :=
  { config :=
      { APIKey := [], WorkerID := str "w1", WebSocketURL := [],
        ServerRootURL := str "http://localhost:8080", LogLevel := str "info",
        NoCleanup := false, Volumes := [] }
    platform := str "linux/amd64"
    imagePull := fun _ _ _ => .ok
    imageInspect := fun _ image => .ok ([image ++ str "@sha256:aaaaaaaaaaaabbbbcccc"], [])
    volumeCreate := fun _ _ => none
    volumeRemove := fun _ _ => none
    containerCreate := fun _ config _ =>
      .ok (if config.Cmd = [str "true"] then str "snapshot"
        else if config.Cmd = [str "tar -x -C /target"] then str "extractor"
        else str "task")
    containerExport := fun _ _ => none
    containerAttach := fun _ _ => none
    containerStart := fun _ _ => none
    containerWait := fun _ id => if id = str "extractor" then .status extractStatus else .status 0
    containerLogs := fun _ _ => .ok []
    copyFromContainer := fun _ _ _ => .error (str "no such file")
    sendAnswer := fun _ _ => .enqueued
    familiar := fun image => some image
    registryAuth := fun _ => []
    augmentArgs := fun _ cmd => cmd
    now := str "2026-01-01T00:00:00Z" }

/-- The assignment of task `t1` with sidecar image `x/sidecar`, no primary
image and the given additional sidecars. -/
def scenarioAssignment (extra : List SidecarMount) : TaskAssignmentMessage :=
  { TaskID := str "t1"
    Task := { ID := str "t1", Title := str "demo", EnvironmentID := none }
    DockerImage := []
    SidecarImage := str "x/sidecar"
    AdditionalSidecars := extra
    EnvVars := [] }

/-- Two additional sidecars mounted at `/xvfb`. -/
def duplicateSidecars : List SidecarMount :=
  [⟨str "y/xvfb", str "/xvfb", false⟩, ⟨str "z/xvfb", str "/xvfb", false⟩]

/-! ## The reference library

`sanitizeVolumeName` takes the library calls as the parameter `familiar`.
For evaluations at concrete image references the functions of
`github.com/distribution/reference` (v0.6.0) that compute the familiar name
are written out here, with the check of `github.com/opencontainers/go-digest`
on a digest.  The libraries are not part of the repository.  The patterns of
the library are anchored at both ends, so a string matches when it belongs
to the language of the pattern, which is what the functions below decide. -/

/-- The call `strings.ToLower` on a string of ASCII bytes. -/
def toLowerASCII (s : GoString) : GoString :=
  s.map (fun c => if 65 ≤ c.toNat ∧ c.toNat ≤ 90 then c + 32 else c)

/-- The call `strings.IndexRune(s, c)` for an ASCII rune `c`; `none` is -1. -/
def indexByte (c : UInt8) : GoString → Option Nat
  | [] => none
  | b :: rest => if b = c then some 0 else (indexByte c rest).map (fun i => i + 1)

/-- Library `splitDockerDomain` (reference/normalize.go): the registry domain
of a reference and what is left of it. -/
def splitDockerDomain (name : GoString) : GoString × GoString :=
  let split : GoString × GoString :=
    match indexByte slash name with
    | none => (str "docker.io", name)
    | some i =>
      if (name.take i).all (fun c => c != 46 && c != colon) ∧ name.take i ≠ str "localhost" ∧
          toLowerASCII (name.take i) = name.take i then
        (str "docker.io", name)
      else (name.take i, name.drop (i + 1))
  let domain := if split.1 = str "index.docker.io" then str "docker.io" else split.1
  let remainder :=
    if domain = str "docker.io" ∧ slash ∉ split.2 then str "library/" ++ split.2 else split.2
  (domain, remainder)

/-- Library `familiarizeName` followed by `Name` (reference/normalize.go,
reference/reference.go): the domain `docker.io` is dropped, and with it the
prefix `library/` of an official repository; any other domain stays, and a
repository without domain is named by its path. -/
def familiarizeName (domain path : GoString) : GoString :=
  if domain = str "docker.io" then
    if path.take 8 = str "library/" ∧ slash ∉ path.drop 8 then path.drop 8 else path
  else if domain = [] then path
  else domain ++ [slash] ++ path

/-- A byte of `[0-9]`. -/
def isDigitByte (c : UInt8) : Bool := decide (48 ≤ c.toNat) && decide (c.toNat ≤ 57)

/-- A byte of `[a-z]`. -/
def isLowerByte (c : UInt8) : Bool := decide (97 ≤ c.toNat) && decide (c.toNat ≤ 122)

/-- A byte of `[A-Z]`. -/
def isUpperByte (c : UInt8) : Bool := decide (65 ≤ c.toNat) && decide (c.toNat ≤ 90)

/-- A byte of `[a-zA-Z0-9]`. -/
def isAlnumByte (c : UInt8) : Bool := isDigitByte c || isLowerByte c || isUpperByte c

/-- A byte of `[a-f0-9]`. -/
def isLowerHexByte (c : UInt8) : Bool :=
  isDigitByte c || (decide (97 ≤ c.toNat) && decide (c.toNat ≤ 102))

/-- A byte of `[a-fA-F0-9]`. -/
def isHexByte (c : UInt8) : Bool :=
  isLowerHexByte c || (decide (65 ≤ c.toNat) && decide (c.toNat ≤ 70))

/-- Library pattern `pathComponent`,
`[a-z0-9]+(?:(?:[._]|__|[-]+)[a-z0-9]+)*`, read from left to right.  The
state says what has just been read: 0 nothing or a whole separator, so that
a letter or digit must come; 1 a letter or digit; 2 one `_`; 3 a run of `-`.
The string matches when it ends in state 1. -/
def matchesPathComponent : Nat → GoString → Bool
  | state, [] => state == 1
  | state, c :: rest =>
    if isLowerByte c || isDigitByte c then matchesPathComponent 1 rest
    else if state = 1 ∧ c = 46 then matchesPathComponent 0 rest
    else if state = 1 ∧ c = 95 then matchesPathComponent 2 rest
    else if state = 2 ∧ c = 95 then matchesPathComponent 0 rest
    else if (state = 1 ∨ state = 3) ∧ c = dash then matchesPathComponent 3 rest
    else false

/-- Library pattern `domainNameComponent`,
`(?:[a-zA-Z0-9]|[a-zA-Z0-9][a-zA-Z0-9-]*[a-zA-Z0-9])`. -/
def matchesDomainComponent (s : GoString) : Bool :=
  match s.head?, s.getLast? with
  | some first, some last =>
    isAlnumByte first && isAlnumByte last && s.all (fun c => isAlnumByte c || c == dash)
  | _, _ => false

/-- Library pattern `optionalPort`, `(?::[0-9]+)?`. -/
def matchesOptionalPort (s : GoString) : Bool :=
  match s with
  | [] => true
  | c :: digits => c == colon && !digits.isEmpty && digits.all isDigitByte

/-- Library pattern `domainAndPort`: a host, which is domain-name components
joined by `.`, or `[`, a run of `[a-fA-F0-9:]` and `]`; then an optional
port. -/
def matchesDomainAndPort (s : GoString) : Bool :=
  match s with
  | 91 :: rest =>
    let address := rest.takeWhile (fun c => c != 93)
    !address.isEmpty && address.all (fun c => isHexByte c || c == colon) &&
      (rest.drop address.length).head? == some 93 &&
      matchesOptionalPort (rest.drop (address.length + 1))
  | _ =>
    let host := s.takeWhile (fun c => c != colon)
    (stringsSplit 46 host).all matchesDomainComponent && matchesOptionalPort (s.drop host.length)

/-- Library pattern `tag`, `[\w][\w.-]{0,127}`. -/
def matchesTag (s : GoString) : Bool :=
  match s with
  | [] => false
  | c :: rest =>
    (isAlnumByte c || c == 95) && decide (rest.length ≤ 127) &&
      rest.all (fun c => isAlnumByte c || c == 95 || c == 46 || c == dash)

/-- A digest that passes both the library pattern `digestPat` and
`digest.Parse` of go-digest: one of the algorithms `sha256`, `sha384`,
`sha512`, a `:`, and lower-case hex digits, twice as many as the hash has
bytes. -/
def validDigest (s : GoString) : Bool :=
  [(str "sha256:", 64), (str "sha384:", 96), (str "sha512:", 128)].any (fun a =>
    s.take 7 == a.1 && (s.drop 7).length == a.2 && (s.drop 7).all isLowerHexByte)

/-- Library `Parse` (reference/reference.go) as far as the repository goes:
the string has to match `referencePat`, a name, then optionally `:` and a tag,
then optionally `@` and a digest; the name is an optional domain with `/` and
then path components joined by `/`; the path holds at most 255 bytes; the
digest has to be valid.  The result is the domain, empty when there is none,
and the path. -/
def parseRepository (s : GoString) : Option (GoString × GoString) :=
  let beforeAt := s.takeWhile (fun c => c != 64)
  let afterAt := s.drop beforeAt.length
  let lastSegment := (stringsSplit slash beforeAt).getLastD []
  let tagPart := lastSegment.drop (lastSegment.takeWhile (fun c => c != colon)).length
  let name := beforeAt.take (beforeAt.length - tagPart.length)
  let repository : Option (GoString × GoString) :=
    match stringsSplit slash name with
    | domain :: component :: components =>
      if matchesDomainAndPort domain ∧
          (component :: components).all (matchesPathComponent 0) then
        some (domain, name.drop (domain.length + 1))
      else if (domain :: component :: components).all (matchesPathComponent 0) then
        some ([], name)
      else none
    | components => if components.all (matchesPathComponent 0) then some ([], name) else none
  if (tagPart = [] ∨ matchesTag (tagPart.drop 1)) ∧ (afterAt = [] ∨ validDigest (afterAt.drop 1))
  then
    match repository with
    | some (domain, path) => if path.length > 255 then none else some (domain, path)
    | none => none
  else none

/-- Library `ParseNormalizedNamed` followed by `FamiliarName(TrimNamed(ref))`:
a string of 64 hex digits is refused; the reference is split into domain and
remainder; the remainder up to its first `:` has to be lower case; the
reference with its domain has to parse; and the name is the familiar form of
the repository. -/
def familiarName (s : GoString) : Option GoString :=
  if s.length = 64 ∧ s.all isLowerHexByte then none
  else
    let remainder := (splitDockerDomain s).2
    let remote := remainder.takeWhile (fun c => c != colon)
    if toLowerASCII remote ≠ remote then none
    else
      match parseRepository ((splitDockerDomain s).1 ++ [slash] ++ remainder) with
      | none => none
      | some (domain, path) => some (familiarizeName domain path)

/-! ## More concrete inputs -/

/-- A daemon like `scenarioEnv 0` where the task container leaves the file
`/workspace/.oz/agent_output.txt` with the text `HELLO` and a newline, and
the log stream `GOODBYE`.  The tar stream of the copy holds an entry that is
not a regular file, then the file, then another regular file. -/
def outputEnv : Env :=
  { scenarioEnv 0 with
    containerLogs := fun _ _ => .ok (str "GOODBYE")
    copyFromContainer := fun _ _ _ =>
      .ok [TarNext.header false (.ok []), TarNext.header true (.ok (str "HELLO\n")),
        TarNext.header true (.ok (str "LATER"))] }

/-- A daemon like `scenarioEnv 0` whose task container leaves no output file
and the log stream `GOODBYE`. -/
def logOnlyEnv : Env :=
  { scenarioEnv 0 with containerLogs := fun _ _ => .ok (str "GOODBYE") }

/-- A daemon like `scenarioEnv 0` whose task container leaves an empty output
file and the log stream `GOODBYE`. -/
def emptyFileEnv : Env :=
  { scenarioEnv 0 with
    containerLogs := fun _ _ => .ok (str "GOODBYE")
    copyFromContainer := fun _ _ _ => .ok [TarNext.header true (.ok [])] }

/-- A daemon like `scenarioEnv 0` whose task container leaves no output file
and a log stream that is not valid UTF-8: `hi` followed by the byte `0xFF`. -/
def rawLogEnv : Env :=
  { scenarioEnv 0 with containerLogs := fun _ _ => .ok (str "hi" ++ [0xFF]) }

/-- A daemon like `scenarioEnv 0` under a worker configured with the host bind
`/srv/models:/models`. -/
def bindsEnv : Env :=
  { scenarioEnv 0 with
    config := { (scenarioEnv 0).config with Volumes := [str "/srv/models:/models"] } }

/-- Two additional sidecars, the second writable. -/
def twoSidecars : List SidecarMount :=
  [⟨str "y/xvfb", str "/xvfb", false⟩, ⟨str "z/cache", str "/cache", true⟩]

/-- A text in which the pattern of worker.go 686 matches twice: the two
matches differ in the byte after `github` and the backslash, `0xFF` in the
first and `0xFE` in the second, neither of them valid UTF-8. -/
def invalidByteOutput : GoString :=
  str "https://github\\" ++ [0xFF] ++ str "com/o/r/pull/\\d https://github\\" ++ [0xFE] ++
    str "com/o/r/pull/\\d"

/-- A text in which the pattern of worker.go 686 matches three times, the
first and the third match being the same string. -/
def backslashOutput : GoString :=
  str ("see https://github\\.com/o/r/pull/\\d and https://github\\.com/a/b/pull/\\dd " ++
    "and https://github\\.com/o/r/pull/\\d")

/-! # Theorems -/

set_option maxRecDepth 100000


/-! ## Strings -/

theorem stringsSplit_of_not_mem (sep : UInt8) (s : GoString) (h : sep ∉ s) :
    stringsSplit sep s = [s] := by
  induction s with
  | nil => simp [stringsSplit]
  | cons c cs ih =>
    have hc : c ≠ sep := fun e => h (by simp [e])
    have hcs : sep ∉ cs := fun e => h (by simp [e])
    simp [stringsSplit, hc, ih hcs]

theorem stringsSplit_append_sep (sep : UInt8) (a b : GoString) (h : sep ∉ a) :
    stringsSplit sep (a ++ sep :: b) = a :: stringsSplit sep b := by
  induction a with
  | nil => simp [stringsSplit]
  | cons c cs ih =>
    have hc : c ≠ sep := fun e => h (by simp [e])
    have hcs : sep ∉ cs := fun e => h (by simp [e])
    simp [stringsSplit, hc, ih hcs]

theorem take12 (hash : GoString) :
    (if hash.length > 12 then hash.take 12 else hash) = hash.take 12 := by
  split
  · rfl
  · rw [List.take_of_length_le (by omega)]

/-- The name for a digest `algo:hex`. -/
theorem sanitizeVolumeName_algo_hex (familiar : GoString → Option GoString)
    (image algo hex : GoString) (ha : colon ∉ algo) (hh : colon ∉ hex) :
    sanitizeVolumeName familiar image (algo ++ colon :: hex) =
      stringsReplaceAll slash dash ((familiar image).getD image) ++ [dash] ++ hex.take 12 := by
  unfold sanitizeVolumeName
  rw [stringsSplit_append_sep colon algo hex ha, stringsSplit_of_not_mem colon hex hh]
  simp only [take12]
  cases familiar image <;> rfl


theorem extract_session (now output : GoString) (h : output ≠ []) :
    (extractArtifactsAndSession now output).2 =
      match findSubmatch sessionRe (decodeRunes output) with
      | some m => text (m.drop sessionRe.group).flatten
      | none => [] := by
  unfold extractArtifactsAndSession
  rw [if_neg h]
  dsimp only
  split <;> rfl

theorem extract_artifacts (now output : GoString) (h : findAllString prRe output = []) :
    (extractArtifactsAndSession now output).1 = none := by
  unfold extractArtifactsAndSession
  split
  · rfl
  · simp [h, collectArtifacts]

/-- A rune takes at least one byte, so decoding with the length of the string
as fuel reaches its end: the runes span the whole string. -/
theorem text_decodeAux (fuel : Nat) : ∀ s : GoString, s.length ≤ fuel →
    text (decodeAux fuel s) = s := by
  induction fuel with
  | zero =>
    intro s h
    cases s with
    | nil => rfl
    | cons b rest => simp at h
  | succ fuel ih =>
    intro s h
    cases s with
    | nil => rfl
    | cons b0 rest =>
      have hl : (rest.drop ((decodeRune b0 rest).2 - 1)).length ≤ fuel := by
        rw [List.length_drop]
        simp only [List.length_cons] at h
        omega
      have := ih _ hl
      unfold text at this ⊢
      simp only [decodeAux, List.map_cons, List.flatten_cons, this, List.cons_append,
        List.take_append_drop]

theorem text_decodeRunes (s : GoString) : text (decodeRunes s) = s :=
  text_decodeAux s.length s (le_refl _)

theorem tryLens_none (rest : List Tok → Option (List (List Tok))) (input : List Tok) (lo : Nat)
    (h : ∀ k, rest (input.drop k) = none) : ∀ n, tryLens rest input lo n = none := by
  intro n
  induction n with
  | zero =>
    unfold tryLens
    have := h 0
    rw [List.drop_zero] at this
    split <;> simp [this]
  | succ n ih =>
    unfold tryLens
    split
    · rfl
    · rw [h (n + 1)]
      exact ih

/-- A pattern with an item that must be taken at least once and that accepts
no rune of the input does not match. -/
theorem matchPieces_none (foldCase : Bool) (ps : List Piece) : ∀ (input : List Tok),
    (∃ p ∈ ps, (p.quant = Quant.one ∨ p.quant = Quant.plus) ∧
      ∀ t ∈ input, p.atom.accepts foldCase t.rune = false) →
    matchPieces foldCase ps input = none := by
  induction ps with
  | nil => intro input h; simp at h
  | cons p ps ih =>
    intro input h
    obtain ⟨q, hq, hquant, hacc⟩ := h
    rcases List.mem_cons.mp hq with rfl | hq
    · have hrun : (input.takeWhile (fun t => q.atom.accepts foldCase t.rune)).length = 0 := by
        cases input with
        | nil => rfl
        | cons t ts =>
          rw [List.takeWhile_cons, hacc t (List.mem_cons_self _ _)]
          rfl
      unfold matchPieces
      simp only [hrun]
      rcases hquant with hq1 | hq1 <;> rw [hq1] <;> rfl
    · have hrest : ∀ k, matchPieces foldCase ps (input.drop k) = none := fun k =>
        ih _ ⟨q, hq, hquant, fun t ht => hacc t (List.mem_of_mem_drop ht)⟩
      unfold matchPieces
      cases p.quant <;> exact tryLens_none _ _ _ hrest _

theorem findAllAux_nil (re : Regexp) : ∀ (toks : List Tok) (skip : Nat),
    (∃ p ∈ re.pieces, (p.quant = Quant.one ∨ p.quant = Quant.plus) ∧
      ∀ t ∈ toks, p.atom.accepts re.foldCase t.rune = false) →
    findAllAux re skip toks = [] := by
  intro toks
  induction toks with
  | nil => intro skip _; cases skip <;> rfl
  | cons t ts ih =>
    intro skip h
    obtain ⟨p, hp, hq, hacc⟩ := h
    have hts : ∃ p ∈ re.pieces, (p.quant = Quant.one ∨ p.quant = Quant.plus) ∧
        ∀ t ∈ ts, p.atom.accepts re.foldCase t.rune = false :=
      ⟨p, hp, hq, fun u hu => hacc u (List.mem_cons_of_mem _ hu)⟩
    cases skip with
    | zero =>
      unfold findAllAux
      rw [matchPieces_none re.foldCase re.pieces (t :: ts) ⟨p, hp, hq, hacc⟩]
      exact ih 0 hts
    | succ k =>
      unfold findAllAux
      exact ih k hts

theorem decodeRune_backslash (b0 : UInt8) (rest : GoString)
    (h : (decodeRune b0 rest).1 = 92) : b0 = 92 := by
  unfold decodeRune at h
  simp only [RuneError, low6, inRange, isCont] at h
  have hb : b0.toNat < 256 := b0.val.isLt
  by_cases h1 : b0.toNat < 128
  · rw [if_pos h1] at h
    exact UInt8.ext h
  · rw [if_neg h1] at h
    exfalso
    repeat' (split at h)
    all_goals (simp only [Bool.and_eq_true, decide_eq_true_eq] at *)
    all_goals omega

theorem decodeAux_backslash (fuel : Nat) : ∀ s : GoString, (92 : UInt8) ∉ s →
    ∀ t ∈ decodeAux fuel s, t.rune ≠ 92 := by
  induction fuel with
  | zero => intro s _ t ht; simp [decodeAux] at ht
  | succ fuel ih =>
    intro s hs t ht
    cases s with
    | nil => simp [decodeAux] at ht
    | cons b0 rest =>
      simp only [decodeAux, List.mem_cons] at ht
      rcases ht with rfl | ht
      · intro h
        exact hs (by rw [decodeRune_backslash b0 rest h]; exact List.mem_cons_self _ _)
      · exact ih _ (fun hm => hs (List.mem_cons_of_mem _ (List.mem_of_mem_drop hm))) t ht

/-- A text without a backslash yields no artifact: the pattern of worker.go 686
asks for one after `github`. -/
theorem extractArtifacts_none_without_backslash (now output : GoString)
    (h : (92 : UInt8) ∉ output) : (extractArtifactsAndSession now output).1 = none := by
  apply extract_artifacts
  unfold findAllString
  apply findAllAux_nil
  refine ⟨⟨.lit 92, .one⟩, by simp [prRe], Or.inl rfl, ?_⟩
  intro t ht
  have := decodeAux_backslash _ output h t ht
  simp [Atom.accepts, prRe]
  exact fun e => this e.symm

/-- Claim C1, at the output of the specification's scenario: the text holds
`https://github.com/o/r/pull/7` twice, yet the pattern of worker.go 686 finds
no match in it and `extractArtifactsAndSession` returns no artifact at all
(a nil list), where the claim expects one `PULL_REQUEST` artifact. -/
theorem extractArtifacts_scenario_finds_no_pull_request (now : GoString) :
    findAllString prRe scenarioOutput = [] ∧
      (extractArtifactsAndSession now scenarioOutput).1 = none :=
  ⟨by decide, extract_artifacts now scenarioOutput (by decide)⟩

/-- Claim C2, at the output of the specification's scenario: the session link
returned is `http://x/a and http`, not `http://x/a`: the URL runs on past the
blank and stops only before the `s` of `https`.  And for the text
`session link http://a.b/c` the link is empty although a URL follows
`session` on the line: the `n` of `link` stops the search. -/
theorem extractSession_scenario_link (now : GoString) :
    (extractArtifactsAndSession now scenarioOutput).2 = str "http://x/a and http" ∧
      (extractArtifactsAndSession now (str "session link http://a.b/c")).2 = [] := by
  rw [extract_session now scenarioOutput (by decide),
    extract_session now (str "session link http://a.b/c") (by decide)]
  decide

/-! ## JSON strings -/

theorem jsonString_nil : jsonString [] = [] := rfl

/-- Once there is fuel for every byte, decoding does not depend on the fuel. -/
theorem decodeAux_fuel (fuel : Nat) : ∀ s : GoString, s.length ≤ fuel →
    decodeAux fuel s = decodeRunes s := by
  induction fuel using Nat.strong_induction_on with
  | _ fuel ih =>
    intro s h
    cases s with
    | nil => cases fuel <;> rfl
    | cons b0 rest =>
      cases fuel with
      | zero => simp at h
      | succ fuel =>
        have hl : (rest.drop ((decodeRune b0 rest).2 - 1)).length ≤ rest.length := by
          rw [List.length_drop]
          omega
        simp only [List.length_cons, Nat.add_le_add_iff_right] at h
        unfold decodeRunes
        simp only [decodeAux, List.length_cons]
        rw [ih fuel (Nat.lt_succ_self _) _ (le_trans hl h),
          ih rest.length (by omega) _ hl]

/-- The width `utf8.DecodeRuneInString` reports is at least one and lies
within the string. -/
theorem decodeRune_width (b0 : UInt8) (rest : GoString) :
    1 ≤ (decodeRune b0 rest).2 ∧ (decodeRune b0 rest).2 - 1 ≤ rest.length := by
  unfold decodeRune
  dsimp only
  repeat' split
  all_goals simp only [List.length_cons]
  all_goals omega

/-- The JSON text of a string, rune by rune. -/
theorem jsonString_cons (b0 : UInt8) (rest : GoString) :
    jsonString (b0 :: rest) =
      (if (decodeRune b0 rest).1 = RuneError ∧ (decodeRune b0 rest).2 = 1 then replacementChar
        else b0 :: rest.take ((decodeRune b0 rest).2 - 1)) ++
      jsonString (rest.drop ((decodeRune b0 rest).2 - 1)) := by
  obtain ⟨h1, h2⟩ := decodeRune_width b0 rest
  have hl : (rest.drop ((decodeRune b0 rest).2 - 1)).length ≤ rest.length := by
    rw [List.length_drop]
    omega
  have hlen : ((rest.take ((decodeRune b0 rest).2 - 1)).length + 1 = 1) ↔
      ((decodeRune b0 rest).2 = 1) := by
    rw [List.length_take, Nat.min_eq_left h2]
    omega
  unfold jsonString
  unfold decodeRunes
  simp only [List.length_cons, decodeAux, List.map_cons, List.flatten_cons]
  rw [decodeAux_fuel rest.length _ hl]
  congr 1
  by_cases hc : (decodeRune b0 rest).1 = RuneError ∧ (decodeRune b0 rest).2 = 1
  · rw [if_pos hc, if_pos ⟨hc.1, hlen.mpr hc.2⟩]
  · rw [if_neg hc, if_neg (fun h => hc ⟨h.1, hlen.mp h.2⟩)]

/-- A string that is valid UTF-8 is its own JSON text. -/
theorem jsonString_of_valid (s : GoString) (h : validString s = true) : jsonString s = s := by
  unfold validString at h
  rw [List.all_eq_true] at h
  have hm : (decodeRunes s).map (fun t =>
      if t.rune = RuneError ∧ t.bytes.length = 1 then replacementChar else t.bytes) =
      (decodeRunes s).map Tok.bytes := by
    apply List.map_congr_left
    intro t ht
    have := h t ht
    simp only [Bool.not_eq_true', Bool.and_eq_false_iff, beq_eq_false_iff_ne, ne_eq] at this
    rw [if_neg]
    rintro ⟨h1, h2⟩
    rcases this with h3 | h3
    · exact h3 h1
    · exact h3 h2
  unfold jsonString
  rw [hm]
  exact text_decodeRunes s

/-! ## Volume names -/

/-- Claim C3: when the image reference parses, with familiar repository name
`repo`, and the digest is `sha256:` followed by `hex` without a colon, the
volume name is `repo` with every `/` replaced by `-`, then `-`, then the
first 12 bytes of `hex` (all of `hex` when it has fewer). -/
theorem sanitizeVolumeName_sha256 (familiar : GoString → Option GoString)
    (image repo hex : GoString) (hparse : familiar image = some repo) (hhex : colon ∉ hex) :
    sanitizeVolumeName familiar image (str "sha256:" ++ hex) =
      stringsReplaceAll slash dash repo ++ [dash] ++ hex.take 12 := by
  have h := sanitizeVolumeName_algo_hex familiar image (str "sha256") hex (by decide) hhex
  have e : str "sha256:" ++ hex = str "sha256" ++ colon :: hex := by
    show _ = str "sha256" ++ ([colon] ++ hex)
    rw [← List.append_assoc]
    rfl
  rw [e, h, hparse]
  rfl

/-- Claim C3 at image `x/sidecar` and digest `sha256:aaaaaaaaaaaabbbbcccc`:
the name is `x-sidecar-aaaaaaaaaaaa`. -/
theorem sanitizeVolumeName_sha256_witness :
    sanitizeVolumeName (fun s => some s) (str "x/sidecar")
        (str "sha256:" ++ str "aaaaaaaaaaaabbbbcccc") =
      str "x-sidecar-aaaaaaaaaaaa" :=
  (sanitizeVolumeName_sha256 (fun s => some s) (str "x/sidecar") (str "x/sidecar")
    (str "aaaaaaaaaaaabbbbcccc") rfl (by decide)).trans (by decide)

/-- Claim C4 as stated fails: the digests `sha256:aaaaaaaaaaaab` and
`sha256:aaaaaaaaaaaac` differ, in the thirteenth byte of the hash, and give
the image `x/sidecar` the same volume name. -/
theorem sanitizeVolumeName_digest_collision :
    str "sha256:aaaaaaaaaaaab" ≠ str "sha256:aaaaaaaaaaaac" ∧
      sanitizeVolumeName (fun s => some s) (str "x/sidecar") (str "sha256:aaaaaaaaaaaab") =
        sanitizeVolumeName (fun s => some s) (str "x/sidecar") (str "sha256:aaaaaaaaaaaac") := by
  decide

/-- Claim C4, amended: for one image and two digests of the form `algo:hex`,
the volume names are equal exactly when the first 12 bytes of the two hex
parts are equal, so digests that differ within those 12 bytes give distinct
names; and equal (image, digest) inputs give equal names. -/
theorem sanitizeVolumeName_distinct_iff (familiar : GoString → Option GoString)
    (image algo1 hex1 algo2 hex2 : GoString)
    (ha1 : colon ∉ algo1) (hh1 : colon ∉ hex1) (ha2 : colon ∉ algo2) (hh2 : colon ∉ hex2) :
    (sanitizeVolumeName familiar image (algo1 ++ colon :: hex1) =
        sanitizeVolumeName familiar image (algo2 ++ colon :: hex2) ↔
      hex1.take 12 = hex2.take 12) ∧
    (∀ image' digest digest', image = image' → digest = digest' →
      sanitizeVolumeName familiar image digest = sanitizeVolumeName familiar image' digest') := by
  refine ⟨?_, fun _ _ _ hi hd => by rw [hi, hd]⟩
  rw [sanitizeVolumeName_algo_hex familiar image algo1 hex1 ha1 hh1,
    sanitizeVolumeName_algo_hex familiar image algo2 hex2 ha2 hh2]
  exact List.append_right_inj _

/-- Claim C4, amended, at two digests that differ in the first byte of the
hash: the names differ. -/
theorem sanitizeVolumeName_distinct_iff_witness :
    sanitizeVolumeName (fun s => some s) (str "x/sidecar")
        (str "sha256" ++ colon :: str "aaaaaaaaaaaab") ≠
      sanitizeVolumeName (fun s => some s) (str "x/sidecar")
        (str "sha256" ++ colon :: str "baaaaaaaaaaab") :=
  fun h => absurd ((sanitizeVolumeName_distinct_iff (fun s => some s) (str "x/sidecar")
    (str "sha256") (str "aaaaaaaaaaaab") (str "sha256") (str "baaaaaaaaaaab")
    (by decide) (by decide) (by decide) (by decide)).1.mp h) (by decide)

/-! ## Reconnecting -/


theorem toFloat64_exact (n : Nat) (h : n < 2 ^ 53) : toFloat64 n = n := by
  unfold toFloat64
  rw [if_pos h]

theorem nextReconnectDelay_eq (d : Nat) (h : d ≤ MaxReconnectDelay) :
    nextReconnectDelay d = min (d * 2) MaxReconnectDelay := by
  unfold nextReconnectDelay
  rw [toFloat64_exact d (by unfold MaxReconnectDelay at h; omega)]

/-- The delay in force after `k` consecutive failed dials. -/
theorem nextReconnectDelay_pow (k : Nat) :
    nextReconnectDelay (min (2 ^ k) 60 * 1000000000) = min (2 ^ (k + 1)) 60 * 1000000000 := by
  rw [nextReconnectDelay_eq _ (by unfold MaxReconnectDelay; omega)]
  unfold MaxReconnectDelay
  rw [pow_succ]
  omega

theorem Start_dialFailed_run (n : Nat) : ∀ (k : Nat) (s : State),
    s.reconnectDelay = min (2 ^ k) 60 * 1000000000 →
    (Start s (List.replicate n Round.dialFailed)).trace =
        s.trace ++ ((List.range n).map
          (fun i => [Event.dial false, Event.sleep (min (2 ^ (k + i)) 60 * 1000000000)])).flatten ∧
      (Start s (List.replicate n Round.dialFailed)).reconnectDelay =
        min (2 ^ (k + n)) 60 * 1000000000 := by
  induction n with
  | zero => intro k s h; simp [Start, h]
  | succ n ih =>
    intro k s h
    rw [List.replicate_succ, Start]
    have := ih (k + 1) { s with
      trace := s.trace ++ [Event.dial false, Event.sleep s.reconnectDelay]
      reconnectDelay := nextReconnectDelay s.reconnectDelay } (by
        show nextReconnectDelay s.reconnectDelay = _
        rw [h, nextReconnectDelay_pow])
    rw [this.1, this.2, List.range_succ_eq_map]
    have e1 : k + 1 + n = k + (n + 1) := by omega
    have e2 : ∀ i, k + 1 + i = k + (i + 1) := fun i => by omega
    refine ⟨?_, by rw [e1]⟩
    simp only [List.map_cons, List.map_map, List.flatten_cons, List.append_assoc, h,
      Nat.add_zero, e2]
    rfl

theorem Start_delay_bounds (rounds : List Round) : ∀ (s : State),
    InitialReconnectDelay ≤ s.reconnectDelay → s.reconnectDelay ≤ MaxReconnectDelay →
    InitialReconnectDelay ≤ (Start s rounds).reconnectDelay ∧
      (Start s rounds).reconnectDelay ≤ MaxReconnectDelay := by
  induction rounds with
  | nil => intro s h1 h2; exact ⟨h1, h2⟩
  | cons r rest ih =>
    intro s h1 h2
    cases r with
    | cancelled => exact ⟨h1, h2⟩
    | dialFailed =>
      rw [Start]
      apply ih
      · show _ ≤ nextReconnectDelay s.reconnectDelay
        rw [nextReconnectDelay_eq _ h2]
        unfold InitialReconnectDelay MaxReconnectDelay at *
        omega
      · show nextReconnectDelay s.reconnectDelay ≤ _
        rw [nextReconnectDelay_eq _ h2]
        omega
    | session =>
      rw [Start]
      apply ih
      · exact le_refl _
      · show InitialReconnectDelay ≤ MaxReconnectDelay
        decide

/-- Claim C6: in `Start`, for a delay within [1 s, 60 s] a failed dial sets
the delay to exactly `min (prev * 2) (60 s)` in nanoseconds, which is no less
than before; from the initial delay, `n` failed dials in a row sleep
`min (2 ^ i) 60` seconds after failure `i + 1`, for `i < n` (1, 2, 4, 8, 16,
32, 60, 60, ...); over every run of turns the delay stays within [1 s, 60 s];
and a successful dial sets it to 1 s. -/
theorem reconnect_backoff :
    (∀ s : State, InitialReconnectDelay ≤ s.reconnectDelay →
      s.reconnectDelay ≤ MaxReconnectDelay →
      (Start s [Round.dialFailed]).reconnectDelay = min (s.reconnectDelay * 2) MaxReconnectDelay ∧
        s.reconnectDelay ≤ (Start s [Round.dialFailed]).reconnectDelay) ∧
    (∀ (s : State) (n : Nat), s.reconnectDelay = InitialReconnectDelay →
      (Start s (List.replicate n Round.dialFailed)).trace =
        s.trace ++ ((List.range n).map
          (fun i => [Event.dial false, Event.sleep (min (2 ^ i) 60 * 1000000000)])).flatten) ∧
    (∀ (s : State) (rounds : List Round), InitialReconnectDelay ≤ s.reconnectDelay →
      s.reconnectDelay ≤ MaxReconnectDelay →
      InitialReconnectDelay ≤ (Start s rounds).reconnectDelay ∧
        (Start s rounds).reconnectDelay ≤ MaxReconnectDelay) ∧
    (∀ s : State, (Start s [Round.session]).reconnectDelay = InitialReconnectDelay) := by
  refine ⟨?_, ?_, fun s rounds => Start_delay_bounds rounds s, fun s => rfl⟩
  · intro s h1 h2
    have e : (Start s [Round.dialFailed]).reconnectDelay = nextReconnectDelay s.reconnectDelay :=
      rfl
    rw [e, nextReconnectDelay_eq _ h2]
    unfold InitialReconnectDelay MaxReconnectDelay at *
    omega
  · intro s n h
    have := (Start_dialFailed_run n 0 s (by rw [h]; rfl)).1
    simpa using this

/-- Claim C6 for eight failed dials in a row from a fresh worker: the sleeps
are 1, 2, 4, 8, 16, 32, 60 and 60 seconds. -/
theorem reconnect_backoff_witness :
    (Start (New []) (List.replicate 8 Round.dialFailed)).trace =
      [Event.dial false, Event.sleep 1000000000, Event.dial false, Event.sleep 2000000000,
       Event.dial false, Event.sleep 4000000000, Event.dial false, Event.sleep 8000000000,
       Event.dial false, Event.sleep 16000000000, Event.dial false, Event.sleep 32000000000,
       Event.dial false, Event.sleep 60000000000, Event.dial false, Event.sleep 60000000000] :=
  (reconnect_backoff.2.1 (New []) 8 rfl).trans (by decide)

/-! ## Frames of the Docker calls -/

theorem sendMessage_trace (env : Env) (s : State) (f : Frame) :
    (sendMessage env s f).2.trace = s.trace ++ [Event.send f (env.sendAnswer s f)] := by
  unfold sendMessage
  cases env.sendAnswer s f <;> rfl

theorem DockerOnly.refl (P : Call → Prop) (s : State) : DockerOnly P s s :=
  ⟨rfl, rfl, rfl, rfl, rfl, [], by simp, by simp⟩

theorem DockerOnly.trans {P : Call → Prop} {s t u : State}
    (h1 : DockerOnly P s t) (h2 : DockerOnly P t u) : DockerOnly P s u := by
  obtain ⟨a1, a2, a3, a4, a5, cs, a6, a7⟩ := h1
  obtain ⟨b1, b2, b3, b4, b5, ds, b6, b7⟩ := h2
  refine ⟨b1.trans a1, b2.trans a2, b3.trans a3, b4.trans a4, b5.trans a5, cs ++ ds, ?_, ?_⟩
  · rw [b6, a6, List.map_append, List.append_assoc]
  · intro c hc
    rcases List.mem_append.mp hc with h | h
    · exact a7 c h
    · exact b7 c h

theorem DockerOnly.call {P : Call → Prop} {s t : State} (h : DockerOnly P s t) (c : Call)
    (hc : P c) : DockerOnly P s (t.call c) :=
  h.trans ⟨rfl, rfl, rfl, rfl, rfl, [c], rfl, by simpa using hc⟩

theorem DockerOnly.volumes {P : Call → Prop} {s t : State} (h : DockerOnly P s t)
    (v : List GoString) : DockerOnly P s { t with volumes := v } :=
  h.trans ⟨rfl, rfl, rfl, rfl, rfl, [], by simp, by simp⟩

theorem pullImage_dockerOnly {P : Call → Prop} (hP : ∀ c, c.notTaskContainer → P c)
    (env : Env) {s t : State} (h : DockerOnly P s t) (image auth : GoString) :
    DockerOnly P s (pullImage env t image auth).2 := by
  unfold pullImage
  split <;> exact h.call _ (hP _ trivial)

theorem getImageDigest_dockerOnly {P : Call → Prop} (hP : ∀ c, c.notTaskContainer → P c)
    (env : Env) {s t : State} (h : DockerOnly P s t) (image : GoString) :
    DockerOnly P s (getImageDigest env t image).2 := by
  unfold getImageDigest
  split
  · exact h.call _ (hP _ trivial)
  · dsimp only
    split
    · exact h.call _ (hP _ trivial)
    · split <;> exact h.call _ (hP _ trivial)

theorem getContainerLogs_dockerOnly {P : Call → Prop} (hP : ∀ c, c.notTaskContainer → P c)
    (env : Env) {s t : State} (h : DockerOnly P s t) (id : GoString) :
    DockerOnly P s (getContainerLogs env t id).2 := by
  unfold getContainerLogs
  split <;> exact h.call _ (hP _ trivial)

theorem volumeInspect_dockerOnly {P : Call → Prop} (hP : ∀ c, c.notTaskContainer → P c)
    {s t : State} (h : DockerOnly P s t) (name : GoString) :
    DockerOnly P s (volumeInspect t name).2 :=
  h.call _ (hP _ trivial)

theorem volumeCreate_dockerOnly {P : Call → Prop} (hP : ∀ c, c.notTaskContainer → P c)
    (env : Env) {s t : State} (h : DockerOnly P s t) (name : GoString) :
    DockerOnly P s (volumeCreate env t name).2 := by
  unfold volumeCreate
  split
  · exact h.call _ (hP _ trivial)
  · exact (h.call (.VolumeCreate name) (hP _ trivial)).volumes _

theorem volumeRemove_dockerOnly {P : Call → Prop} (hP : ∀ c, c.notTaskContainer → P c)
    (env : Env) {s t : State} (h : DockerOnly P s t) (name : GoString) (force : Bool) :
    DockerOnly P s (volumeRemove env t name force).2 := by
  unfold volumeRemove
  split
  · exact h.call _ (hP _ trivial)
  · exact (h.call (.VolumeRemove name force) (hP _ trivial)).volumes _

theorem containerCreate_dockerOnly {P : Call → Prop}
    {env : Env} {s t t' : State} (h : DockerOnly P s t) {config : ContainerConfig}
    {host : HostConfig} {r : Except GoString GoString}
    (heq : containerCreate env t config host = (r, t')) (hc : P (.ContainerCreate config host)) :
    DockerOnly P s t' := by
  have : t' = (containerCreate env t config host).2 := by rw [heq]
  rw [this]
  exact h.call _ hc

theorem copySidecar_dockerOnly {P : Call → Prop} (hP : ∀ c, c.notTaskContainer → P c)
    (env : Env) {s t : State} (h : DockerOnly P s t) (image volume : GoString) :
    DockerOnly P s (copySidecarFilesystemToVolume env t image volume).2 := by
  unfold copySidecarFilesystemToVolume
  dsimp only
  split
  · next e s1 heq => exact containerCreate_dockerOnly h heq (hP _ rfl)
  · next id1 s1 heq =>
    have h1 := containerCreate_dockerOnly h heq (hP _ rfl)
    have h2 := h1.call (.ContainerExport id1) (hP _ trivial)
    split
    · exact h2
    · split
      · next e s3 heq3 => exact containerCreate_dockerOnly h2 heq3 (hP _ rfl)
      · next id2 s3 heq3 =>
        have h3 := containerCreate_dockerOnly h2 heq3 (hP _ rfl)
        have h4 := h3.call (.ContainerAttach id2) (hP _ trivial)
        have h5 := h4.call (.ContainerStart id2) (hP _ trivial)
        have h6 := h5.call (.ContainerWait id2) (hP _ trivial)
        split
        · exact h4
        · split
          · exact h5
          · split
            · exact h6
            · exact h6
            · split
              · exact getContainerLogs_dockerOnly hP env h6 _
              · exact h6

theorem snd_of_eq {α β : Type} {p : α × β} {a : α} {b : β} (h : p = (a, b)) : b = p.2 := by
  rw [h]

theorem prepareSidecarsLoop_dockerOnly {P : Call → Prop} (hP : ∀ c, c.notTaskContainer → P c)
    (env : Env) (sidecars : List SidecarMount) :
    ∀ (binds seen : List GoString) {s t : State}, DockerOnly P s t →
      DockerOnly P s (prepareSidecarsLoop env sidecars binds seen t).2 := by
  induction sidecars with
  | nil => intro binds seen s t h; exact h
  | cons sidecar rest ih =>
    intro binds seen s t h
    unfold prepareSidecarsLoop
    split
    · exact h
    · split
      · exact h
      · split
        · exact h
        · dsimp only
          split
          · next e s1 heq => exact snd_of_eq heq ▸ pullImage_dockerOnly hP env h _ _
          · next s1 heq =>
            have h1 : DockerOnly P s s1 := snd_of_eq heq ▸ pullImage_dockerOnly hP env h _ _
            split
            · next e s2 heq2 => exact snd_of_eq heq2 ▸ getImageDigest_dockerOnly hP env h1 _
            · next digest s2 heq2 =>
              have h2 : DockerOnly P s s2 :=
                snd_of_eq heq2 ▸ getImageDigest_dockerOnly hP env h1 _
              split
              · next s3 heq3 =>
                exact ih _ _ (snd_of_eq heq3 ▸ volumeInspect_dockerOnly hP h2 _)
              · next s3 heq3 =>
                have h3 : DockerOnly P s s3 := snd_of_eq heq3 ▸ volumeInspect_dockerOnly hP h2 _
                split
                · next e s4 heq4 => exact snd_of_eq heq4 ▸ volumeCreate_dockerOnly hP env h3 _
                · next s4 heq4 =>
                  have h4 : DockerOnly P s s4 :=
                    snd_of_eq heq4 ▸ volumeCreate_dockerOnly hP env h3 _
                  split
                  · next e s5 heq5 =>
                    have h5 : DockerOnly P s s5 :=
                      snd_of_eq heq5 ▸ copySidecar_dockerOnly hP env h4 _ _
                    exact volumeRemove_dockerOnly hP env h5 _ _
                  · next s5 heq5 =>
                    exact ih _ _ (snd_of_eq heq5 ▸ copySidecar_dockerOnly hP env h4 _ _)

theorem prepareSidecarVolume_dockerOnly {P : Call → Prop} (hP : ∀ c, c.notTaskContainer → P c)
    (env : Env) {s t : State} (h : DockerOnly P s t) (image volume : GoString) :
    DockerOnly P s (prepareSidecarVolume env t image volume).2 := by
  unfold prepareSidecarVolume
  split
  · next s1 heq => exact snd_of_eq heq ▸ volumeInspect_dockerOnly hP h _
  · next s1 heq =>
    have h1 : DockerOnly P s s1 := snd_of_eq heq ▸ volumeInspect_dockerOnly hP h _
    split
    · next e s2 heq2 => exact snd_of_eq heq2 ▸ volumeCreate_dockerOnly hP env h1 _
    · next s2 heq2 =>
      have h2 : DockerOnly P s s2 := snd_of_eq heq2 ▸ volumeCreate_dockerOnly hP env h1 _
      split
      · next e s3 heq3 => exact snd_of_eq heq3 ▸ copySidecar_dockerOnly hP env h2 _ _
      · next s3 heq3 => exact snd_of_eq heq3 ▸ copySidecar_dockerOnly hP env h2 _ _

/-- Two sidecars with one mount path make the loop fail. -/
theorem prepareSidecarsLoop_duplicate (env : Env) (sidecars : List SidecarMount) :
    ∀ (binds seen : List GoString) (s : State),
      (∃ x ∈ sidecars, x.MountPath ∈ seen) ∨ ¬ (sidecars.map SidecarMount.MountPath).Nodup →
      ∃ e, (prepareSidecarsLoop env sidecars binds seen s).1 = .error e := by
  induction sidecars with
  | nil =>
    intro binds seen s h
    simp at h
  | cons sidecar rest ih =>
    intro binds seen s h
    have hrest : ¬ seen.contains sidecar.MountPath →
        (∃ x ∈ rest, x.MountPath ∈ sidecar.MountPath :: seen) ∨
          ¬ (rest.map SidecarMount.MountPath).Nodup := by
      intro hns
      rcases h with ⟨x, hx, hxs⟩ | h
      · rcases List.mem_cons.mp hx with rfl | hx
        · exact absurd (by simpa using hxs) hns
        · exact Or.inl ⟨x, hx, List.mem_cons_of_mem _ hxs⟩
      · rw [List.map_cons, List.nodup_cons, not_and_or, not_not] at h
        rcases h with h | h
        · obtain ⟨x, hx, hxe⟩ := List.mem_map.mp h
          exact Or.inl ⟨x, hx, by rw [hxe]; exact List.mem_cons_self _ _⟩
        · exact Or.inr h
    unfold prepareSidecarsLoop
    split
    · exact ⟨_, rfl⟩
    · split
      · exact ⟨_, rfl⟩
      · split
        · exact ⟨_, rfl⟩
        · next hns =>
          dsimp only
          split
          · exact ⟨_, rfl⟩
          · split
            · exact ⟨_, rfl⟩
            · split
              · exact ih _ _ _ (hrest hns)
              · split
                · exact ⟨_, rfl⟩
                · split
                  · exact ⟨_, rfl⟩
                  · exact ih _ _ _ (hrest hns)

/-- Up to the additional sidecars `executeTaskInDocker` either has failed, with
the initial result and without creating the task container, or has prepared
all sidecars. -/
theorem executeTaskInDocker_before_create (env : Env) (s : State)
    (assignment : TaskAssignmentMessage) :
    (∃ e s1, executeTaskInDocker env s assignment = ((initialResult, some e), s1) ∧
      DockerOnly Call.notTaskContainer s s1) ∨
    (∃ s4 binds s5,
      prepareAdditionalSidecars env s4 assignment.AdditionalSidecars = (.ok binds, s5)) := by
  have hP : ∀ c : Call, c.notTaskContainer → c.notTaskContainer := fun _ h => h
  have h0 := DockerOnly.refl Call.notTaskContainer s
  unfold executeTaskInDocker
  dsimp only
  split
  · next e s1 heq => exact Or.inl ⟨_, _, rfl, snd_of_eq heq ▸ pullImage_dockerOnly hP env h0 _ _⟩
  · next s1 heq =>
    have h1 : DockerOnly Call.notTaskContainer s s1 :=
      snd_of_eq heq ▸ pullImage_dockerOnly hP env h0 _ _
    split
    · exact Or.inl ⟨_, _, rfl, h1⟩
    · split
      · next e s2 heq2 =>
        exact Or.inl ⟨_, _, rfl, snd_of_eq heq2 ▸ pullImage_dockerOnly hP env h1 _ _⟩
      · next s2 heq2 =>
        have h2 : DockerOnly Call.notTaskContainer s s2 :=
          snd_of_eq heq2 ▸ pullImage_dockerOnly hP env h1 _ _
        split
        · next e s3 heq3 =>
          exact Or.inl ⟨_, _, rfl, snd_of_eq heq3 ▸ getImageDigest_dockerOnly hP env h2 _⟩
        · next d s3 heq3 =>
          have h3 : DockerOnly Call.notTaskContainer s s3 :=
            snd_of_eq heq3 ▸ getImageDigest_dockerOnly hP env h2 _
          split
          · next e s4 heq4 =>
            exact Or.inl ⟨_, _, rfl,
              snd_of_eq heq4 ▸ prepareSidecarVolume_dockerOnly hP env h3 _ _⟩
          · next s4 heq4 =>
            have h4 : DockerOnly Call.notTaskContainer s s4 :=
              snd_of_eq heq4 ▸ prepareSidecarVolume_dockerOnly hP env h3 _ _
            split
            · next e s5 heq5 =>
              exact Or.inl ⟨_, _, rfl,
                snd_of_eq heq5 ▸ prepareSidecarsLoop_dockerOnly hP env _ [] [] h4⟩
            · next binds s5 heq5 => exact Or.inr ⟨_, _, _, heq5⟩

theorem taskContainer_workingDir (env : Env) (assignment : TaskAssignmentMessage)
    (image volume : GoString) (binds : List GoString) :
    (taskContainer env assignment image volume binds).1.WorkingDir = str "/workspace" := rfl

/-- Claim C8, amended: when two additional sidecars of the assignment have the
same mount path, the executor returns an error with the initial result; all
it has done is a run `cs` of Docker calls none of which creates the task
container, whatever image, volume and binds that would have had (calls that
create the containers which fill a sidecar volume may be among them); and
`executeTask` then hands a task-failed frame for the task, with the task id
and the message as JSON strings, to the send operation and nothing else. -/
theorem duplicate_mount_path_fails (env : Env) (s : State) (cancel : Nat)
    (assignment : TaskAssignmentMessage)
    (hdup : ¬ (assignment.AdditionalSidecars.map SidecarMount.MountPath).Nodup) :
    ∃ (e : GoString) (s1 : State) (cs : List Call) (a : SendAnswer),
      executeTaskInDocker env s assignment = ((initialResult, some e), s1) ∧
      s1.trace = s.trace ++ cs.map Event.docker ∧
      (∀ c ∈ cs, ∀ image volume binds,
        c ≠ Call.ContainerCreate (taskContainer env assignment image volume binds).1
          (taskContainer env assignment image volume binds).2) ∧
      (executeTask env s cancel assignment).trace = s1.trace ++
        [Event.send (Frame.failed (jsonString assignment.TaskID)
          (jsonString (str "Task failed: " ++ e)) [] none []) a,
         Event.untrack assignment.TaskID] := by
  rcases executeTaskInDocker_before_create env s assignment with ⟨e, s1, heq, hd⟩ | ⟨s4, b, s5, h⟩
  · obtain ⟨_, _, _, _, _, cs, htr, hcs⟩ := hd
    refine ⟨e, s1, cs, env.sendAnswer s1
      (Frame.failed (jsonString assignment.TaskID) (jsonString (str "Task failed: " ++ e))
        [] none []), heq, htr, ?_, ?_⟩
    · intro c hc image volume binds hcc
      have := hcs c hc
      rw [hcc] at this
      have hw : str "/workspace" = [] := this
      exact absurd hw (by decide)
    · unfold executeTask
      rw [heq]
      show (sendMessage env s1 _).2.trace ++ _ = _
      rw [sendMessage_trace]
      simp [initialResult, jsonString_nil]
  · obtain ⟨e, he⟩ := prepareSidecarsLoop_duplicate env assignment.AdditionalSidecars [] [] s4
      (Or.inr hdup)
    unfold prepareAdditionalSidecars at h
    rw [h] at he
    cases he

theorem copyTextFile_dockerOnly {P : Call → Prop} (hP : ∀ c, c.notTaskContainer → P c)
    (env : Env) {s t : State} (h : DockerOnly P s t) (id path : GoString) :
    DockerOnly P s (copyTextFileFromContainer env t id path).2 := by
  unfold copyTextFileFromContainer
  split <;> exact h.call _ (hP _ trivial)

theorem captureOutput_dockerOnly {P : Call → Prop} (hP : ∀ c, c.notTaskContainer → P c)
    (env : Env) {s t : State} (h : DockerOnly P s t) (result : ExecutionResult)
    (id logOutput : GoString) :
    DockerOnly P s (captureOutput env t result id logOutput).2 := by
  unfold captureOutput
  split
  next txt err s1 heq => exact snd_of_eq heq ▸ copyTextFile_dockerOnly hP env h _ _

theorem runCreatedContainer_dockerOnly {P : Call → Prop} (hP : ∀ c, c.notTaskContainer → P c)
    (env : Env) {s t : State} (h : DockerOnly P s t) (result : ExecutionResult)
    (id : GoString) :
    DockerOnly P s (runCreatedContainer env t result id).2 := by
  unfold runCreatedContainer
  dsimp only
  have h1 := h.call (.ContainerStart id) (hP _ trivial)
  have h2 := h1.call (.ContainerWait id) (hP _ trivial)
  split
  · exact h1
  · split
    · exact h2
    · exact captureOutput_dockerOnly hP env h2 _ _ _
    · exact captureOutput_dockerOnly hP env (getContainerLogs_dockerOnly hP env h2 _) _ _ _

theorem removeContainer_dockerOnly {P : Call → Prop} (hP : ∀ c, c.notTaskContainer → P c)
    (env : Env) {s t : State} (h : DockerOnly P s t) (id : GoString) :
    DockerOnly P s (removeContainer env t id) := by
  unfold removeContainer
  split
  · exact h.call _ (hP _ trivial)
  · exact h

/-- The executor only talks to the Docker daemon. -/
theorem executeTaskInDocker_dockerOnly (env : Env) (s : State)
    (assignment : TaskAssignmentMessage) :
    DockerOnly (fun _ => True) s (executeTaskInDocker env s assignment).2 := by
  have hP : ∀ c : Call, c.notTaskContainer → (fun _ : Call => True) c := fun _ _ => trivial
  have h0 := DockerOnly.refl (fun _ : Call => True) s
  unfold executeTaskInDocker
  dsimp only
  split
  · next e s1 heq => exact snd_of_eq heq ▸ pullImage_dockerOnly hP env h0 _ _
  · next s1 heq =>
    have h1 : DockerOnly (fun _ => True) s s1 :=
      snd_of_eq heq ▸ pullImage_dockerOnly hP env h0 _ _
    split
    · exact h1
    · split
      · next e s2 heq2 => exact snd_of_eq heq2 ▸ pullImage_dockerOnly hP env h1 _ _
      · next s2 heq2 =>
        have h2 : DockerOnly (fun _ => True) s s2 :=
          snd_of_eq heq2 ▸ pullImage_dockerOnly hP env h1 _ _
        split
        · next e s3 heq3 => exact snd_of_eq heq3 ▸ getImageDigest_dockerOnly hP env h2 _
        · next d s3 heq3 =>
          have h3 : DockerOnly (fun _ => True) s s3 :=
            snd_of_eq heq3 ▸ getImageDigest_dockerOnly hP env h2 _
          split
          · next e s4 heq4 => exact snd_of_eq heq4 ▸ prepareSidecarVolume_dockerOnly hP env h3 _ _
          · next s4 heq4 =>
            have h4 : DockerOnly (fun _ => True) s s4 :=
              snd_of_eq heq4 ▸ prepareSidecarVolume_dockerOnly hP env h3 _ _
            split
            · next e s5 heq5 =>
              exact snd_of_eq heq5 ▸ prepareSidecarsLoop_dockerOnly hP env _ [] [] h4
            · next binds s5 heq5 =>
              have h5 : DockerOnly (fun _ => True) s s5 :=
                snd_of_eq heq5 ▸ prepareSidecarsLoop_dockerOnly hP env _ [] [] h4
              split
              · next e s6 heq6 => exact containerCreate_dockerOnly h5 heq6 trivial
              · next id s6 heq6 =>
                have h6 := containerCreate_dockerOnly h5 heq6 trivial
                exact removeContainer_dockerOnly hP env
                  (runCreatedContainer_dockerOnly hP env h6 _ _) _


/-! ## Task lifecycle -/

theorem executeTask_eq (env : Env) (s : State) (cancel : Nat)
    (assignment : TaskAssignmentMessage) :
    executeTask env s cancel assignment =
      releaseTask (reportResult env (executeTaskInDocker env s assignment).2 assignment.TaskID
        (executeTaskInDocker env s assignment).1.1 (executeTaskInDocker env s assignment).1.2)
        cancel assignment := rfl

theorem releaseTask_trace (s : State) (cancel : Nat) (assignment : TaskAssignmentMessage) :
    (releaseTask s cancel assignment).trace = s.trace ++ [Event.untrack assignment.TaskID] := rfl

/-- Claim C9, amended: whatever `(result, err)` the executor returned, the
report of `executeTask` hands exactly one frame to the send operation.  With
an error it is task-failed, with the message `Task failed: ` followed by the
error's text and with the output, artifacts and session link of the result;
without one it is task-completed with the exit code, output, artifacts and
session link of the result, whatever the exit code.  The frame is JSON: task
id, worker id, message, output and session link stand in it as JSON strings,
in which every byte that starts no valid UTF-8 encoding has become U+FFFD; a
text that is valid UTF-8 stands in it unchanged.  And all of `executeTask`
is: the Docker calls of the executor, this one frame for what the executor
returned, and the removal from the table. -/
theorem executeTask_terminal_frame (env : Env) (s : State) (cancel : Nat)
    (assignment : TaskAssignmentMessage) (taskID : GoString) (result : ExecutionResult)
    (err : Option GoString) :
    (∃ a : SendAnswer, (reportResult env s taskID result err).trace = s.trace ++
      [Event.send
        (match err with
          | some e => Frame.failed (jsonString taskID) (jsonString (str "Task failed: " ++ e))
              (jsonString result.Output) result.Artifacts (jsonString result.SessionLink)
          | none => Frame.completed (jsonString taskID) (jsonString env.config.WorkerID)
              (jsonString result.Output) result.ExitCode result.Artifacts
              (jsonString result.SessionLink)) a]) ∧
    (∃ (cs : List Call) (a : SendAnswer),
      (executeTask env s cancel assignment).trace = s.trace ++ cs.map Event.docker ++
        [Event.send
          (match (executeTaskInDocker env s assignment).1.2 with
            | some e => Frame.failed (jsonString assignment.TaskID)
                (jsonString (str "Task failed: " ++ e))
                (jsonString (executeTaskInDocker env s assignment).1.1.Output)
                (executeTaskInDocker env s assignment).1.1.Artifacts
                (jsonString (executeTaskInDocker env s assignment).1.1.SessionLink)
            | none => Frame.completed (jsonString assignment.TaskID)
                (jsonString env.config.WorkerID)
                (jsonString (executeTaskInDocker env s assignment).1.1.Output)
                (executeTaskInDocker env s assignment).1.1.ExitCode
                (executeTaskInDocker env s assignment).1.1.Artifacts
                (jsonString (executeTaskInDocker env s assignment).1.1.SessionLink)) a,
         Event.untrack assignment.TaskID]) ∧
    (∀ t : GoString, validString t = true → jsonString t = t) ∧
    (∀ (b0 : UInt8) (rest : GoString),
      jsonString (b0 :: rest) =
        (if (decodeRune b0 rest).1 = RuneError ∧ (decodeRune b0 rest).2 = 1 then replacementChar
          else b0 :: rest.take ((decodeRune b0 rest).2 - 1)) ++
        jsonString (rest.drop ((decodeRune b0 rest).2 - 1))) := by
  have hrep : ∀ (s : State) (taskID : GoString) (result : ExecutionResult)
      (err : Option GoString),
      ∃ a : SendAnswer, (reportResult env s taskID result err).trace = s.trace ++
      [Event.send
        (match err with
          | some e => Frame.failed (jsonString taskID) (jsonString (str "Task failed: " ++ e))
              (jsonString result.Output) result.Artifacts (jsonString result.SessionLink)
          | none => Frame.completed (jsonString taskID) (jsonString env.config.WorkerID)
              (jsonString result.Output) result.ExitCode result.Artifacts
              (jsonString result.SessionLink)) a] := by
    intro s taskID result err
    cases err with
    | some e => exact ⟨_, sendMessage_trace env s _⟩
    | none => exact ⟨_, sendMessage_trace env s _⟩
  refine ⟨hrep s taskID result err, ?_, jsonString_of_valid, jsonString_cons⟩
  obtain ⟨_, _, _, _, _, cs, hcs, _⟩ := executeTaskInDocker_dockerOnly env s assignment
  obtain ⟨a, ha⟩ := hrep (executeTaskInDocker env s assignment).2 assignment.TaskID
    (executeTaskInDocker env s assignment).1.1 (executeTaskInDocker env s assignment).1.2
  refine ⟨cs, a, ?_⟩
  rw [executeTask_eq, releaseTask_trace, ha, hcs]
  simp

/-- Claim C9 as stated fails: the task container of this run leaves no output
file and the log stream `hi` followed by the byte `0xFF`.  The executor
returns that text as the output of the result, without error; the one frame
`executeTask` hands to the send operation is task-completed and its output
is `hi` followed by U+FFFD, not the output of the result. -/
theorem terminal_frame_output_rewritten :
    (executeTaskInDocker rawLogEnv (New []) (scenarioAssignment [])).1 =
      ({ Output := str "hi" ++ [0xFF], Artifacts := none, SessionLink := [], ExitCode := 0 },
        none) ∧
    (executeTask rawLogEnv (New []) 0 (scenarioAssignment [])).trace.filter
        (fun e => match e with
          | .send _ _ => true
          | _ => false) =
      [Event.send (Frame.completed (str "t1") (str "w1") (str "hi\uFFFD") 0 none [])
        SendAnswer.enqueued] ∧
    Frame.completed (str "t1") (str "w1") (str "hi\uFFFD") 0 none [] ≠
      Frame.completed (str "t1") (str "w1") (str "hi" ++ [0xFF]) 0 none [] := by
  decide

/-- Claim C9, amended, at the text `HELLO` with a newline, which is valid
UTF-8 and stands in a frame as it is, and at the log stream `hi` followed by
the byte `0xFF`, whose last byte becomes U+FFFD. -/
theorem executeTask_terminal_frame_witness :
    validString (str "HELLO\n") = true ∧ jsonString (str "HELLO\n") = str "HELLO\n" ∧
    jsonString (str "hi" ++ [0xFF]) = str "hi\uFFFD" :=
  ⟨by decide,
   (executeTask_terminal_frame rawLogEnv (New []) 0 (scenarioAssignment []) (str "t1")
      initialResult none).2.2.1 (str "HELLO\n") (by decide),
   by decide⟩

theorem find_filter_ne (m : List (GoString × Nat)) (k t : GoString) (htk : t ≠ k) :
    (m.filter (fun e => e.1 != k)).find? (fun e => e.1 == t) = m.find? (fun e => e.1 == t) := by
  induction m with
  | nil => rfl
  | cons e m ih =>
    by_cases hek : e.1 = k
    · have het : (e.1 == t) = false := by
        simp only [beq_eq_false_iff_ne, ne_eq]
        exact fun h => htk (h ▸ hek)
      have hf : (e.1 != k) = false := by simp [hek]
      rw [List.filter_cons, hf, List.find?_cons, het]
      exact ih
    · have hf : (e.1 != k) = true := by simp [hek]
      rw [List.filter_cons, hf]
      simp only [if_true, List.find?_cons]
      rw [ih]

theorem mapGet_filter (m : List (GoString × Nat)) (k t : GoString) :
    mapGet (m.filter (fun e => e.1 != k)) t = if t = k then none else mapGet m t := by
  by_cases htk : t = k
  · rw [if_pos htk]
    unfold mapGet
    rw [Option.map_eq_none', List.find?_eq_none]
    intro x hx
    have := (List.mem_filter.mp hx).2
    simp only [bne_iff_ne, ne_eq] at this
    simp only [beq_iff_eq, htk]
    exact this
  · rw [if_neg htk]
    unfold mapGet
    rw [find_filter_ne m k t htk]

theorem mapGet_mapDelete (m : List (GoString × Nat)) (k t : GoString) :
    mapGet (mapDelete m k) t = if t = k then none else mapGet m t :=
  mapGet_filter m k t

theorem mapGet_mapSet (m : List (GoString × Nat)) (k t : GoString) (v : Nat) :
    mapGet (mapSet m k v) t = if t = k then some v else mapGet m t := by
  by_cases htk : t = k
  · simp [mapSet, mapGet, htk]
  · have h := mapGet_filter m k t
    rw [if_neg htk] at h
    have hkt : ¬ k = t := fun e => htk e.symm
    rw [if_neg htk, ← h]
    simp [mapSet, mapGet, List.find?_cons, hkt]


theorem sendMessage_worker (env : Env) (s : State) (f : Frame) :
    (sendMessage env s f).2.activeTasks = s.activeTasks ∧
      (sendMessage env s f).2.executors = s.executors ∧
      (sendMessage env s f).2.nextCancel = s.nextCancel := by
  unfold sendMessage
  cases env.sendAnswer s f <;> exact ⟨rfl, rfl, rfl⟩

theorem handleTaskAssignment_worker (env : Env) (s : State) (a : TaskAssignmentMessage) :
    (handleTaskAssignment env s a).activeTasks = mapSet s.activeTasks a.TaskID s.nextCancel ∧
      (handleTaskAssignment env s a).executors = s.executors ++ [(s.nextCancel, a)] ∧
      (handleTaskAssignment env s a).nextCancel = s.nextCancel + 1 := by
  obtain ⟨h1, h2, h3⟩ := sendMessage_worker env s
    (Frame.claimed (jsonString a.TaskID) (jsonString env.config.WorkerID))
  unfold handleTaskAssignment sendTaskClaimed
  dsimp only
  rw [h1, h2, h3]
  exact ⟨rfl, rfl, rfl⟩

theorem reportResult_worker (env : Env) (s : State) (taskID : GoString)
    (result : ExecutionResult) (err : Option GoString) :
    (reportResult env s taskID result err).activeTasks = s.activeTasks ∧
      (reportResult env s taskID result err).executors = s.executors ∧
      (reportResult env s taskID result err).nextCancel = s.nextCancel := by
  unfold reportResult
  cases err with
  | some e => exact sendMessage_worker env s _
  | none => exact sendMessage_worker env s _

theorem executeTask_worker (env : Env) (s : State) (c : Nat) (a : TaskAssignmentMessage) :
    (executeTask env s c a).activeTasks = mapDelete s.activeTasks a.TaskID ∧
      (executeTask env s c a).executors = s.executors.erase (c, a) ∧
      (executeTask env s c a).nextCancel = s.nextCancel := by
  obtain ⟨_, _, d3, d4, d5, _⟩ := executeTaskInDocker_dockerOnly env s a
  obtain ⟨h1, h2, h3⟩ := reportResult_worker env (executeTaskInDocker env s a).2 a.TaskID
    (executeTaskInDocker env s a).1.1 (executeTaskInDocker env s a).1.2
  unfold executeTask releaseTask
  dsimp only
  rw [h1, h2, h3, d3, d4, d5]
  exact ⟨rfl, rfl, rfl⟩

theorem TableInv_New (v : List GoString) : TableInv (New v) := by
  refine ⟨?_, ?_, ?_, ?_⟩ <;> simp [New, mapGet]

theorem TableInv_assign (env : Env) (s : State) (a : TaskAssignmentMessage) (h : TableInv s)
    (hfresh : ∀ e ∈ s.executors, e.2.TaskID ≠ a.TaskID) :
    TableInv (handleTaskAssignment env s a) := by
  obtain ⟨i1, i2, i3, i4⟩ := h
  obtain ⟨h1, h2, h3⟩ := handleTaskAssignment_worker env s a
  unfold TableInv
  rw [h1, h2, h3]
  refine ⟨?_, ?_, ?_, ?_⟩
  · intro c a' hm
    rw [mapGet_mapSet]
    rcases List.mem_append.mp hm with hm | hm
    · rw [if_neg (hfresh _ hm)]
      exact i1 c a' hm
    · simp only [List.mem_singleton, Prod.mk.injEq] at hm
      rw [hm.2, if_pos rfl, hm.1]
  · intro t c hg
    rw [mapGet_mapSet] at hg
    by_cases htk : t = a.TaskID
    · rw [if_pos htk] at hg
      refine ⟨a, List.mem_append.mpr (Or.inr ?_), htk.symm⟩
      simp only [List.mem_singleton, Prod.mk.injEq, and_true]
      exact (Option.some.inj hg).symm
    · rw [if_neg htk] at hg
      obtain ⟨a', ha', hta'⟩ := i2 t c hg
      exact ⟨a', List.mem_append.mpr (Or.inl ha'), hta'⟩
  · intro c a' hm
    rcases List.mem_append.mp hm with hm | hm
    · exact Nat.lt_succ_of_lt (i3 c a' hm)
    · simp only [List.mem_singleton, Prod.mk.injEq] at hm
      rw [hm.1]
      exact Nat.lt_succ_self _
  · rw [List.map_append, List.nodup_append]
    refine ⟨i4, by simp, ?_⟩
    intro x hx hx'
    simp only [List.map_cons, List.map_nil, List.mem_singleton] at hx'
    obtain ⟨e, he, hxe⟩ := List.mem_map.mp hx
    have := i3 e.1 e.2 he
    rw [hxe, hx'] at this
    exact absurd this (Nat.lt_irrefl _)

theorem TableInv_finish (env : Env) (s : State) (c : Nat) (a : TaskAssignmentMessage)
    (h : TableInv s) (hrun : (c, a) ∈ s.executors) :
    TableInv (executeTask env s c a) := by
  obtain ⟨i1, i2, i3, i4⟩ := h
  obtain ⟨h1, h2, h3⟩ := executeTask_worker env s c a
  have hnd : s.executors.Nodup := List.Nodup.of_map _ i4
  have hother : ∀ c' a', (c', a') ∈ s.executors → (c', a') ≠ (c, a) → a'.TaskID ≠ a.TaskID := by
    intro c' a' hm hne hid
    have e1 := i1 c' a' hm
    have e2 := i1 c a hrun
    rw [hid, e2] at e1
    have hc : c = c' := Option.some.inj e1
    subst hc
    have := List.inj_on_of_nodup_map i4 hm hrun rfl
    exact hne this
  unfold TableInv
  rw [h1, h2, h3]
  refine ⟨?_, ?_, ?_, ?_⟩
  · intro c' a' hm
    have hm' := (List.Nodup.mem_erase_iff hnd).mp hm
    rw [mapGet_mapDelete, if_neg (hother c' a' hm'.2 hm'.1)]
    exact i1 c' a' hm'.2
  · intro t c' hg
    rw [mapGet_mapDelete] at hg
    by_cases htk : t = a.TaskID
    · rw [if_pos htk] at hg
      cases hg
    · rw [if_neg htk] at hg
      obtain ⟨a', ha', hta'⟩ := i2 t c' hg
      refine ⟨a', (List.Nodup.mem_erase_iff hnd).mpr ⟨?_, ha'⟩, hta'⟩
      intro e
      rw [Prod.mk.injEq] at e
      rw [e.2] at hta'
      exact htk hta'.symm
  · intro c' a' hm
    exact i3 c' a' (List.mem_of_mem_erase hm)
  · exact List.Nodup.sublist (List.Sublist.map _ (List.erase_sublist _ _)) i4

theorem lifecycle_finish (env : Env) (s : State) (c : Nat) (a : TaskAssignmentMessage)
    (rest : List LifecycleEvent) :
    lifecycle env s (LifecycleEvent.finish c a :: rest) =
      if (c, a) ∈ s.executors then lifecycle env (executeTask env s c a) rest
      else lifecycle env s rest := rfl

theorem lifecycle_append (env : Env) (l1 l2 : List LifecycleEvent) :
    ∀ s, lifecycle env s (l1 ++ l2) = lifecycle env (lifecycle env s l1) l2 := by
  induction l1 with
  | nil => intro s; rfl
  | cons x l1 ih =>
    intro s
    cases x with
    | assign a => exact ih _
    | finish c a =>
      rw [List.cons_append, lifecycle_finish, lifecycle_finish]
      split
      · exact ih _
      · exact ih _

theorem TableInv_lifecycle (env : Env) (v : List GoString) (events : List LifecycleEvent)
    (hfresh : ∀ pre a rest, events = pre ++ LifecycleEvent.assign a :: rest →
      ∀ e ∈ (lifecycle env (New v) pre).executors, e.2.TaskID ≠ a.TaskID) :
    TableInv (lifecycle env (New v) events) := by
  induction events using List.reverseRecOn with
  | nil => exact TableInv_New v
  | append_singleton l x ih =>
    have ihl := ih (fun pre a rest he =>
      hfresh pre a (rest ++ [x]) (by rw [he]; simp))
    rw [lifecycle_append]
    cases x with
    | assign a =>
      exact TableInv_assign env _ a ihl (hfresh l a [] rfl)
    | finish c a =>
      rw [lifecycle_finish]
      split
      · next hrun => exact TableInv_finish env _ c a ihl hrun
      · exact ihl

/-- Claim C7, amended: over every sequence of assignments and executor
terminations in which no task id is assigned while an executor for that id
is still running, the table holds, under the task id of each running
executor, the cancel function of that executor, and holds nothing else: an
entry is gone exactly when its executor has returned.  And in every state,
when an executor returns no entry for its task id remains. -/
theorem active_task_table (env : Env) (v : List GoString) (events : List LifecycleEvent)
    (hfresh : ∀ pre a rest, events = pre ++ LifecycleEvent.assign a :: rest →
      ∀ e ∈ (lifecycle env (New v) pre).executors, e.2.TaskID ≠ a.TaskID) :
    (∀ c a, (c, a) ∈ (lifecycle env (New v) events).executors →
      mapGet (lifecycle env (New v) events).activeTasks a.TaskID = some c) ∧
    (∀ t c, mapGet (lifecycle env (New v) events).activeTasks t = some c →
      ∃ a, (c, a) ∈ (lifecycle env (New v) events).executors ∧ a.TaskID = t) ∧
    (∀ (s : State) (c : Nat) (a : TaskAssignmentMessage),
      mapGet (executeTask env s c a).activeTasks a.TaskID = none) := by
  obtain ⟨i1, i2, _, _⟩ := TableInv_lifecycle env v events hfresh
  refine ⟨i1, i2, ?_⟩
  intro s c a
  rw [(executeTask_worker env s c a).1, mapGet_mapDelete, if_pos rfl]

/-- Claim C7, amended, for task `t1` assigned, finished and assigned again:
the table holds the cancel function of the second executor. -/
theorem active_task_table_witness :
    mapGet (lifecycle (scenarioEnv 0) (New [])
      [LifecycleEvent.assign (scenarioAssignment []),
       LifecycleEvent.finish 0 (scenarioAssignment []),
       LifecycleEvent.assign (scenarioAssignment [])]).activeTasks (str "t1") = some 1 :=
  (active_task_table (scenarioEnv 0) [] _ (by
    intro pre a rest he e hm
    rcases pre with _ | ⟨p1, _ | ⟨p2, _ | ⟨p3, pre⟩⟩⟩
    · simp [lifecycle, New] at hm
    · simp at he
    · have h0 : (lifecycle (scenarioEnv 0) (New [])
          [LifecycleEvent.assign (scenarioAssignment []),
           LifecycleEvent.finish 0 (scenarioAssignment [])]).executors = [] := by decide
      simp only [List.cons_append, List.nil_append, List.cons.injEq] at he
      rw [← he.1, ← he.2.1, h0] at hm
      cases hm
    · simp at he)).1 1 (scenarioAssignment []) (by decide)

/-- Claim C7 as stated fails when a task id is assigned twice: after two
assignments of task `t1` the first executor still runs but the table holds
the cancel function of the second under `t1`; and once the first executor
returns, the second still runs and the table has no entry for `t1`. -/
theorem active_task_table_reassigned :
    (0, scenarioAssignment []) ∈ (lifecycle (scenarioEnv 0) (New [])
        [LifecycleEvent.assign (scenarioAssignment []),
         LifecycleEvent.assign (scenarioAssignment [])]).executors ∧
      mapGet (lifecycle (scenarioEnv 0) (New [])
        [LifecycleEvent.assign (scenarioAssignment []),
         LifecycleEvent.assign (scenarioAssignment [])]).activeTasks (str "t1") = some 1 ∧
      (1, scenarioAssignment []) ∈ (lifecycle (scenarioEnv 0) (New [])
        [LifecycleEvent.assign (scenarioAssignment []),
         LifecycleEvent.assign (scenarioAssignment []),
         LifecycleEvent.finish 0 (scenarioAssignment [])]).executors ∧
      mapGet (lifecycle (scenarioEnv 0) (New [])
        [LifecycleEvent.assign (scenarioAssignment []),
         LifecycleEvent.assign (scenarioAssignment []),
         LifecycleEvent.finish 0 (scenarioAssignment [])]).activeTasks (str "t1") = none := by
  decide

/-! ## Evaluations on the concrete daemon -/


/-- Claim C5, at a run where the volume of the sidecar `x/sidecar` does not
exist, volume-create succeeds and the extraction container exits with
status 1: the executor returns an error, but the volume it created is still
in the runtime and no volume-remove was issued.  The next attempt, against a
daemon where everything succeeds, finds the volume by name, neither creates
nor fills it, and runs the task container with the empty volume at `/agent`. -/
theorem primary_sidecar_volume_left_behind :
    (executeTaskInDocker (scenarioEnv 1) (New []) (scenarioAssignment [])).1 =
      (initialResult, some (str ("failed to copy sidecar to volume: " ++
        "extraction container exited with status 1. Logs: "))) ∧
    (executeTaskInDocker (scenarioEnv 1) (New []) (scenarioAssignment [])).2.volumes =
      [str "x-sidecar-aaaaaaaaaaaa"] ∧
    Event.docker (Call.VolumeRemove (str "x-sidecar-aaaaaaaaaaaa") false) ∉
      (executeTaskInDocker (scenarioEnv 1) (New []) (scenarioAssignment [])).2.trace ∧
    (executeTaskInDocker (scenarioEnv 0)
      (executeTaskInDocker (scenarioEnv 1) (New []) (scenarioAssignment [])).2
      (scenarioAssignment [])).1.2 = none ∧
    (executeTaskInDocker (scenarioEnv 0)
      (executeTaskInDocker (scenarioEnv 1) (New []) (scenarioAssignment [])).2
      (scenarioAssignment [])).2.trace.drop
        (executeTaskInDocker (scenarioEnv 1) (New []) (scenarioAssignment [])).2.trace.length =
      [Event.docker (Call.ImagePull (str "ubuntu:22.04") (str "linux/amd64") []),
       Event.docker (Call.ImagePull (str "x/sidecar") (str "linux/amd64") []),
       Event.docker (Call.ImageInspect (str "x/sidecar")),
       Event.docker (Call.VolumeInspect (str "x-sidecar-aaaaaaaaaaaa")),
       Event.docker (Call.ContainerCreate
         { Image := str "ubuntu:22.04"
           Cmd := [str "/bin/sh", str "/agent/entrypoint.sh", str "agent", str "run",
             str "--share", str "team:edit", str "--task-id", str "t1", str "--sandboxed",
             str "--server-root-url", str "http://localhost:8080"]
           Env := [str "TASK_ID=t1", str "GIT_TERMINAL_PROMPT=0", str "GH_PROMPT_DISABLED=1"]
           WorkingDir := str "/workspace" }
         { Binds := [str "x-sidecar-aaaaaaaaaaaa:/agent:ro"] }),
       Event.docker (Call.ContainerStart (str "task")),
       Event.docker (Call.ContainerWait (str "task")),
       Event.docker (Call.ContainerLogs (str "task")),
       Event.docker (Call.CopyFromContainer (str "task") (str "/workspace/.oz/agent_output.txt")),
       Event.docker (Call.ContainerRemove (str "task") true)] := by
  decide

/-- Claim C8 as stated fails: with two additional sidecars mounted at `/xvfb`
and no volume yet for the sidecar `x/sidecar`, the executor returns the
duplicate-mount-path error after it has issued container-create calls, the
first of them for the container whose filesystem it exports into the volume. -/
theorem duplicate_mount_path_after_container_create :
    ¬ (duplicateSidecars.map SidecarMount.MountPath).Nodup ∧
    (executeTaskInDocker (scenarioEnv 0) (New []) (scenarioAssignment duplicateSidecars)).1.2 =
      some (str "duplicate mount path /xvfb for additional sidecar z/xvfb") ∧
    Event.docker (Call.ContainerCreate { Image := str "x/sidecar", Cmd := [str "true"] }
        { AutoRemove := true }) ∈
      (executeTaskInDocker (scenarioEnv 0) (New []) (scenarioAssignment duplicateSidecars)).2.trace := by
  decide

/-- Claim C8, amended, at the assignment with two additional sidecars mounted
at `/xvfb`. -/
theorem duplicate_mount_path_fails_witness :
    ∃ (e : GoString) (s1 : State) (cs : List Call) (a : SendAnswer),
      executeTaskInDocker (scenarioEnv 0) (New []) (scenarioAssignment duplicateSidecars) =
        ((initialResult, some e), s1) ∧
      s1.trace = (New []).trace ++ cs.map Event.docker ∧
      (∀ c ∈ cs, ∀ image volume binds,
        c ≠ Call.ContainerCreate
          (taskContainer (scenarioEnv 0) (scenarioAssignment duplicateSidecars) image volume binds).1
          (taskContainer (scenarioEnv 0) (scenarioAssignment duplicateSidecars) image volume binds).2) ∧
      (executeTask (scenarioEnv 0) (New []) 0 (scenarioAssignment duplicateSidecars)).trace =
        s1.trace ++
        [Event.send (Frame.failed (jsonString (scenarioAssignment duplicateSidecars).TaskID)
          (jsonString (str "Task failed: " ++ e)) [] none []) a,
         Event.untrack (scenarioAssignment duplicateSidecars).TaskID] :=
  duplicate_mount_path_fails (scenarioEnv 0) (New []) 0 (scenarioAssignment duplicateSidecars)
    (by decide)

/-! ## The executor up to the task container -/

/-- Once the preparations are through, the rest of the executor is the
creation of the task container and the run of it. -/
theorem executeTaskInDocker_of_prepared (env : Env) (s : State)
    (assignment : TaskAssignmentMessage) (volumeName : GoString) (binds : List GoString)
    (s5 : State) (h : Prepared env s assignment volumeName binds s5) :
    executeTaskInDocker env s assignment =
      match containerCreate env s5
        (taskContainer env assignment (taskImage assignment) volumeName binds).1
        (taskContainer env assignment (taskImage assignment) volumeName binds).2 with
      | (.error e, s6) => ((initialResult, some (str "failed to create container: " ++ e)), s6)
      | (.ok id, s6) =>
        ((runCreatedContainer env s6 initialResult id).1,
          removeContainer env (runCreatedContainer env s6 initialResult id).2 id) := by
  obtain ⟨s1, s2, d, s3, s4, h1, h2, h3, h4, h5, h6, h7⟩ := h
  unfold taskImage at h1 ⊢
  subst h5
  unfold executeTaskInDocker
  simp only [h1, h2, h3, h4, h6, h7, if_false]

/-- The executor either fails during its preparations, with the initial
result and Docker calls that create no task container, or gets through them. -/
theorem executeTaskInDocker_prepared_or (env : Env) (s : State)
    (assignment : TaskAssignmentMessage) :
    (∃ e s1, executeTaskInDocker env s assignment = ((initialResult, some e), s1) ∧
      DockerOnly Call.notTaskContainer s s1) ∨
    (∃ volumeName binds s5, Prepared env s assignment volumeName binds s5 ∧
      DockerOnly Call.notTaskContainer s s5) := by
  have hP : ∀ c : Call, c.notTaskContainer → c.notTaskContainer := fun _ h => h
  have h0 := DockerOnly.refl Call.notTaskContainer s
  unfold Prepared taskImage
  unfold executeTaskInDocker
  dsimp only
  split
  · next e s1 heq => exact Or.inl ⟨_, _, rfl, snd_of_eq heq ▸ pullImage_dockerOnly hP env h0 _ _⟩
  · next s1 heq =>
    have h1 : DockerOnly Call.notTaskContainer s s1 :=
      snd_of_eq heq ▸ pullImage_dockerOnly hP env h0 _ _
    split
    · exact Or.inl ⟨_, _, rfl, h1⟩
    · next hside =>
      split
      · next e s2 heq2 =>
        exact Or.inl ⟨_, _, rfl, snd_of_eq heq2 ▸ pullImage_dockerOnly hP env h1 _ _⟩
      · next s2 heq2 =>
        have h2 : DockerOnly Call.notTaskContainer s s2 :=
          snd_of_eq heq2 ▸ pullImage_dockerOnly hP env h1 _ _
        split
        · next e s3 heq3 =>
          exact Or.inl ⟨_, _, rfl, snd_of_eq heq3 ▸ getImageDigest_dockerOnly hP env h2 _⟩
        · next d s3 heq3 =>
          have h3 : DockerOnly Call.notTaskContainer s s3 :=
            snd_of_eq heq3 ▸ getImageDigest_dockerOnly hP env h2 _
          split
          · next e s4 heq4 =>
            exact Or.inl ⟨_, _, rfl,
              snd_of_eq heq4 ▸ prepareSidecarVolume_dockerOnly hP env h3 _ _⟩
          · next s4 heq4 =>
            have h4 : DockerOnly Call.notTaskContainer s s4 :=
              snd_of_eq heq4 ▸ prepareSidecarVolume_dockerOnly hP env h3 _ _
            split
            · next e s5 heq5 =>
              exact Or.inl ⟨_, _, rfl,
                snd_of_eq heq5 ▸ prepareSidecarsLoop_dockerOnly hP env _ [] [] h4⟩
            · next binds s5 heq5 =>
              exact Or.inr ⟨_, binds, s5, ⟨s1, s2, d, s3, s4, heq, hside, heq2, heq3, rfl, heq4, heq5⟩,
                snd_of_eq heq5 ▸ prepareSidecarsLoop_dockerOnly hP env _ [] [] h4⟩

/-- The preparations are Docker calls that create no task container. -/
theorem Prepared_dockerOnly (env : Env) (s : State) (assignment : TaskAssignmentMessage)
    (volumeName : GoString) (binds : List GoString) (s5 : State)
    (h : Prepared env s assignment volumeName binds s5) :
    DockerOnly Call.notTaskContainer s s5 := by
  have hP : ∀ c : Call, c.notTaskContainer → c.notTaskContainer := fun _ h => h
  obtain ⟨s1, s2, d, s3, s4, h1, _, h3, h4, _, h6, h7⟩ := h
  have d1 : DockerOnly Call.notTaskContainer s s1 :=
    snd_of_eq h1 ▸ pullImage_dockerOnly hP env (DockerOnly.refl _ s) _ _
  have d2 : DockerOnly Call.notTaskContainer s s2 :=
    snd_of_eq h3 ▸ pullImage_dockerOnly hP env d1 _ _
  have d3 : DockerOnly Call.notTaskContainer s s3 :=
    snd_of_eq h4 ▸ getImageDigest_dockerOnly hP env d2 _
  have d4 : DockerOnly Call.notTaskContainer s s4 :=
    snd_of_eq h6 ▸ prepareSidecarVolume_dockerOnly hP env d3 _ _
  exact snd_of_eq h7 ▸ prepareSidecarsLoop_dockerOnly hP env _ [] [] d4

/-! ## Output capture -/

theorem captureOutput_ok (env : Env) (s : State) (result : ExecutionResult)
    (id logOutput : GoString) : (captureOutput env s result id logOutput).1.2 = none := by
  unfold captureOutput
  rfl

theorem runCreatedContainer_error (env : Env) (s : State) (result : ExecutionResult)
    (id : GoString) (h : (runCreatedContainer env s result id).1.2 ≠ none) :
    (runCreatedContainer env s result id).1.1 = result := by
  unfold runCreatedContainer at h ⊢
  dsimp only at h ⊢
  cases h1 : env.containerStart s id with
  | some e => rfl
  | none =>
    rw [h1] at h
    dsimp only at h ⊢
    cases h2 : env.containerWait (s.call (Call.ContainerStart id)) id with
    | error e => rfl
    | nilError =>
      rw [h2] at h
      exact absurd (captureOutput_ok _ _ _ _ _) h
    | status code =>
      rw [h2] at h
      exact absurd (captureOutput_ok _ _ _ _ _) h

theorem executeTaskInDocker_error_result (env : Env) (s : State)
    (assignment : TaskAssignmentMessage)
    (h : (executeTaskInDocker env s assignment).1.2 ≠ none) :
    (executeTaskInDocker env s assignment).1.1 = initialResult := by
  unfold executeTaskInDocker at h ⊢
  dsimp only at h ⊢
  repeat' split
  all_goals first
    | rfl
    | (simp_all only []
       exact runCreatedContainer_error env _ initialResult _ (by assumption))

/-- Claim C18: whenever `executeTaskInDocker` returns an error, the result
that comes with it is the initial one: exit code -1, empty output, nil
artifacts, empty session link.  So every task-failed frame that `executeTask`
hands to the send operation has an empty output, no artifacts and an empty
session link. -/
theorem error_carries_initial_result (env : Env) (s : State) (cancel : Nat)
    (assignment : TaskAssignmentMessage) :
    ((executeTaskInDocker env s assignment).1.2 ≠ none →
      (executeTaskInDocker env s assignment).1.1 =
        { Output := [], Artifacts := none, SessionLink := [], ExitCode := -1 }) ∧
    (∀ taskID message output artifacts sessionLink a,
      Event.send (Frame.failed taskID message output artifacts sessionLink) a ∈
        (executeTask env s cancel assignment).trace.drop s.trace.length →
      output = [] ∧ artifacts = none ∧ sessionLink = []) := by
  refine ⟨fun h => executeTaskInDocker_error_result env s assignment h, ?_⟩
  intro taskID message output artifacts sessionLink a hm
  obtain ⟨_, _, _, _, _, cs, hcs, _⟩ := executeTaskInDocker_dockerOnly env s assignment
  rw [executeTask_eq, releaseTask_trace] at hm
  cases herr : (executeTaskInDocker env s assignment).1.2 with
  | none =>
    rw [herr] at hm
    unfold reportResult sendTaskCompleted at hm
    rw [sendMessage_trace, hcs] at hm
    simp at hm
  | some e =>
    have hres := executeTaskInDocker_error_result env s assignment (by rw [herr]; simp)
    rw [herr, hres] at hm
    unfold reportResult sendTaskFailed at hm
    rw [sendMessage_trace, hcs] at hm
    simp [initialResult] at hm
    obtain ⟨_, _, h1, h2, h3⟩ := hm.1
    exact ⟨h1, h2, h3⟩

/-- Claim C18 at the run whose extraction container exits with status 1. -/
theorem error_carries_initial_result_witness :
    (executeTaskInDocker (scenarioEnv 1) (New []) (scenarioAssignment [])).1.1 =
      { Output := [], Artifacts := none, SessionLink := [], ExitCode := -1 } :=
  (error_carries_initial_result (scenarioEnv 1) (New []) 0 (scenarioAssignment [])).1 (by decide)

theorem firstRegularFile_skip (pre : List TarNext) (b : GoString) (rest : List TarNext)
    (hpre : ∀ x ∈ pre, ∃ c, x = TarNext.header false c) :
    firstRegularFile (pre ++ TarNext.header true (.ok b) :: rest) = (b, none) := by
  induction pre with
  | nil => rfl
  | cons x pre ih =>
    obtain ⟨c, rfl⟩ := hpre x (List.mem_cons_self _ _)
    exact ih (fun y hy => hpre y (List.mem_cons_of_mem _ hy))

/-- The read of the tar stream succeeds with the text `b` exactly when the
first entry that is a regular file, or that `Next` fails on, is a regular
file whose content reads as `b`. -/
theorem firstRegularFile_iff (tr : List TarNext) (b : GoString) :
    firstRegularFile tr = (b, none) ↔
      ∃ (pre rest : List TarNext), tr = pre ++ TarNext.header true (.ok b) :: rest ∧
        ∀ x ∈ pre, ∃ c, x = TarNext.header false c := by
  constructor
  · induction tr with
    | nil => intro h; simp [firstRegularFile] at h
    | cons x tr ih =>
      intro h
      cases x with
      | error e => simp [firstRegularFile] at h
      | header regular content =>
        cases regular with
        | false =>
          obtain ⟨pre, rest, h1, h2⟩ := ih h
          refine ⟨TarNext.header false content :: pre, rest, by rw [h1]; rfl, ?_⟩
          intro y hy
          rcases List.mem_cons.mp hy with rfl | hy
          · exact ⟨content, rfl⟩
          · exact h2 y hy
        | true =>
          cases content with
          | error e => simp [firstRegularFile] at h
          | ok c =>
            simp only [firstRegularFile, Prod.mk.injEq, and_true] at h
            subst h
            exact ⟨[], tr, rfl, by simp⟩
  · rintro ⟨pre, rest, rfl, h⟩
    exact firstRegularFile_skip pre b rest h

/-- With the task container created, the executor returns what the run of it
returns. -/
theorem TaskContainerCreated_run (env : Env) (s : State) (assignment : TaskAssignmentMessage)
    (id : GoString) (s6 : State) (h : TaskContainerCreated env s assignment id s6) :
    (executeTaskInDocker env s assignment).1 = (runCreatedContainer env s6 initialResult id).1 := by
  obtain ⟨v, b, s5, hp, hc⟩ := h
  rw [executeTaskInDocker_of_prepared env s assignment v b s5 hp, hc]

/-- Claim C11: when the executor has created and started the task container
and the wait for it does not fail, the executor returns no error, whatever
the reads of the logs and of the output file give; and every run that
returns no error is of this kind.  The output of the result is then the text
of `/workspace/.oz/agent_output.txt` if the read of that file gave no error
and a non-empty text, and otherwise the log output: what the daemon's
`ContainerLogs` gave once the exit status had arrived, or nothing when that
call failed or when the wait ended with a nil on the error channel.  The
read of the file is the answer of the daemon's `CopyFromContainer`, asked
after the logs, taken through the tar reader: the text of the first regular
file of the stream, entries that are not regular files being passed over.
The artifacts and the session link of the result are those extracted from
its output. -/
theorem output_preference (env : Env) (s : State) (assignment : TaskAssignmentMessage) :
    (∀ (id : GoString) (s6 : State) (code : Int),
      TaskContainerCreated env s assignment id s6 →
      env.containerStart s6 id = none →
      env.containerWait (s6.call (.ContainerStart id)) id = .status code →
      ∀ (logOutput : GoString) (file : GoString × Option GoString),
        logOutput =
          (match env.containerLogs
              ((s6.call (.ContainerStart id)).call (.ContainerWait id)) id with
            | .ok out => out
            | .error _ => []) →
        file =
          (match env.copyFromContainer
              (((s6.call (.ContainerStart id)).call (.ContainerWait id)).call
                (.ContainerLogs id)) id (str "/workspace/.oz/agent_output.txt") with
            | .ok tr => firstRegularFile tr
            | .error e => ([], some e)) →
        (executeTaskInDocker env s assignment).1.2 = none ∧
        (executeTaskInDocker env s assignment).1.1.Output =
          (if file.2 = none ∧ file.1 ≠ [] then file.1 else logOutput) ∧
        (executeTaskInDocker env s assignment).1.1.ExitCode = code) ∧
    (∀ (id : GoString) (s6 : State),
      TaskContainerCreated env s assignment id s6 →
      env.containerStart s6 id = none →
      env.containerWait (s6.call (.ContainerStart id)) id = .nilError →
      ∀ (file : GoString × Option GoString),
        file =
          (match env.copyFromContainer
              ((s6.call (.ContainerStart id)).call (.ContainerWait id)) id
              (str "/workspace/.oz/agent_output.txt") with
            | .ok tr => firstRegularFile tr
            | .error e => ([], some e)) →
        (executeTaskInDocker env s assignment).1.2 = none ∧
        (executeTaskInDocker env s assignment).1.1.Output =
          (if file.2 = none ∧ file.1 ≠ [] then file.1 else []) ∧
        (executeTaskInDocker env s assignment).1.1.ExitCode = -1) ∧
    ((executeTaskInDocker env s assignment).1.2 = none →
      (∃ (id : GoString) (s6 : State), TaskContainerCreated env s assignment id s6 ∧
        env.containerStart s6 id = none ∧
        ∀ e, env.containerWait (s6.call (.ContainerStart id)) id ≠ .error e) ∧
      (executeTaskInDocker env s assignment).1.1.Artifacts =
        (extractArtifactsAndSession env.now
          (executeTaskInDocker env s assignment).1.1.Output).1 ∧
      (executeTaskInDocker env s assignment).1.1.SessionLink =
        (extractArtifactsAndSession env.now
          (executeTaskInDocker env s assignment).1.1.Output).2) ∧
    (∀ (tr : List TarNext) (b : GoString),
      firstRegularFile tr = (b, none) ↔
        ∃ (pre rest : List TarNext), tr = pre ++ TarNext.header true (.ok b) :: rest ∧
          ∀ x ∈ pre, ∃ c, x = TarNext.header false c) := by
  refine ⟨?_, ?_, ?_, firstRegularFile_iff⟩
  · intro id s6 code hc hstart hwait logOutput file hlog hfile
    rw [TaskContainerCreated_run env s assignment id s6 hc]
    subst hlog hfile
    unfold runCreatedContainer
    simp only [hstart, hwait]
    unfold getContainerLogs captureOutput copyTextFileFromContainer
    cases env.containerLogs ((s6.call (.ContainerStart id)).call (.ContainerWait id)) id <;>
      cases env.copyFromContainer
        (((s6.call (.ContainerStart id)).call (.ContainerWait id)).call (.ContainerLogs id)) id
        (str "/workspace/.oz/agent_output.txt") <;>
      exact ⟨rfl, rfl, rfl⟩
  · intro id s6 hc hstart hwait file hfile
    rw [TaskContainerCreated_run env s assignment id s6 hc]
    subst hfile
    unfold runCreatedContainer
    simp only [hstart, hwait]
    unfold captureOutput copyTextFileFromContainer
    cases env.copyFromContainer ((s6.call (.ContainerStart id)).call (.ContainerWait id)) id
        (str "/workspace/.oz/agent_output.txt") <;>
      exact ⟨rfl, rfl, rfl⟩
  · intro h
    rcases executeTaskInDocker_prepared_or env s assignment with
      ⟨e, s1, heq, _⟩ | ⟨v, b, s5, hp, _⟩
    · rw [heq] at h
      cases h
    · have hex := executeTaskInDocker_of_prepared env s assignment v b s5 hp
      cases hc : containerCreate env s5
          (taskContainer env assignment (taskImage assignment) v b).1
          (taskContainer env assignment (taskImage assignment) v b).2 with
      | mk r s6 =>
        rw [hc] at hex
        cases r with
        | error e =>
          rw [hex] at h
          cases h
        | ok id =>
          have hrun : (executeTaskInDocker env s assignment).1 =
              (runCreatedContainer env s6 initialResult id).1 := by rw [hex]
          rw [hrun] at h ⊢
          unfold runCreatedContainer at h ⊢
          cases hstart : env.containerStart s6 id with
          | some e =>
            rw [hstart] at h
            cases h
          | none =>
            simp only [hstart] at h ⊢
            cases hwait : env.containerWait (s6.call (.ContainerStart id)) id with
            | error e =>
              rw [hwait] at h
              cases h
            | nilError =>
              exact ⟨⟨id, s6, ⟨v, b, s5, hp, hc⟩, hstart, fun e he => by rw [hwait] at he; cases he⟩,
                rfl, rfl⟩
            | status code =>
              exact ⟨⟨id, s6, ⟨v, b, s5, hp, hc⟩, hstart, fun e he => by rw [hwait] at he; cases he⟩,
                rfl, rfl⟩

/-- Claim C11 for the file content `HELLO` with a newline, standing in the tar
stream after a directory entry and before another file, and the log
`GOODBYE`: the output is the file content.  Without the file, and with an
empty file, the output is the log. -/
theorem output_preference_witness :
    (∃ s6 : State,
      TaskContainerCreated outputEnv (New []) (scenarioAssignment []) (str "task") s6 ∧
      outputEnv.containerStart s6 (str "task") = none ∧
      outputEnv.containerWait (s6.call (.ContainerStart (str "task"))) (str "task") = .status 0) ∧
    (executeTaskInDocker outputEnv (New []) (scenarioAssignment [])).1.2 = none ∧
    (executeTaskInDocker outputEnv (New []) (scenarioAssignment [])).1.1.Output = str "HELLO\n" ∧
    (executeTaskInDocker logOnlyEnv (New []) (scenarioAssignment [])).1 =
      ({ Output := str "GOODBYE", Artifacts := none, SessionLink := [], ExitCode := 0 }, none) ∧
    (executeTaskInDocker emptyFileEnv (New []) (scenarioAssignment [])).1 =
      ({ Output := str "GOODBYE", Artifacts := none, SessionLink := [], ExitCode := 0 }, none) :=
  ⟨⟨_, ⟨_, _, _, ⟨_, _, _, _, _, rfl, by decide, rfl, rfl, rfl, rfl, rfl⟩, rfl⟩, rfl, rfl⟩,
   ((output_preference outputEnv (New []) (scenarioAssignment [])).1 (str "task") _ 0
      ⟨_, _, _, ⟨_, _, _, _, _, rfl, by decide, rfl, rfl, rfl, rfl, rfl⟩, rfl⟩ rfl rfl
      _ _ rfl rfl).1,
   ((output_preference outputEnv (New []) (scenarioAssignment [])).1 (str "task") _ 0
      ⟨_, _, _, ⟨_, _, _, _, _, rfl, by decide, rfl, rfl, rfl, rfl, rfl⟩, rfl⟩ rfl rfl
      _ _ rfl rfl).2.1.trans (by decide),
   by decide, by decide⟩

/-! ## Sidecar binds -/

/-- One turn of the loop that succeeds: the digest is the one read after the
pull of this sidecar's image, the bind is added at the end, and the loop goes
on with the rest, whatever the rest is. -/
theorem prepareSidecarsLoop_head (env : Env) (sidecar : SidecarMount)
    (rest : List SidecarMount) (binds seen : List GoString) (s : State)
    (out : List GoString) (s' : State)
    (h : prepareSidecarsLoop env (sidecar :: rest) binds seen s = (.ok out, s')) :
    ∃ (digest : GoString) (t : State),
      (getImageDigest env (pullImage env s sidecar.Image []).2 sidecar.Image).1 = .ok digest ∧
      ∀ l : List SidecarMount,
        prepareSidecarsLoop env (sidecar :: l) binds seen s =
          prepareSidecarsLoop env l
            (binds ++ [sanitizeVolumeName env.familiar sidecar.Image digest ++ str ":" ++
              sidecar.MountPath ++ (if sidecar.ReadWrite then [] else str ":ro")])
            (sidecar.MountPath :: seen) t := by
  unfold prepareSidecarsLoop at h
  split at h
  · cases h
  · next h1 =>
    split at h
    · cases h
    · next h2 =>
      split at h
      · cases h
      · next h3 =>
        dsimp only at h
        split at h
        · cases h
        · next s1 heq1 =>
          split at h
          · cases h
          · next digest s2 heq2 =>
            have hs1 : (pullImage env s sidecar.Image []).2 = s1 := by rw [heq1]
            have hd : (getImageDigest env (pullImage env s sidecar.Image []).2
                sidecar.Image).1 = .ok digest := by rw [hs1, heq2]
            split at h
            · next s3 heq3 =>
              refine ⟨digest, s3, hd, fun l => ?_⟩
              rw [prepareSidecarsLoop, if_neg h1, if_neg h2, if_neg h3]
              simp only [heq1, heq2, heq3]
            · next s3 heq3 =>
              split at h
              · cases h
              · next s4 heq4 =>
                split at h
                · cases h
                · next s5 heq5 =>
                  refine ⟨digest, s5, hd, fun l => ?_⟩
                  rw [prepareSidecarsLoop, if_neg h1, if_neg h2, if_neg h3]
                  simp only [heq1, heq2, heq3, heq4, heq5]

/-- The binds of a loop that succeeds: those it started with, then one for
each sidecar, built with the digest read for that sidecar. -/
theorem prepareSidecarsLoop_nth (env : Env) (sidecars : List SidecarMount) :
    ∀ (binds seen : List GoString) (s : State) (out : List GoString) (s' : State),
      prepareSidecarsLoop env sidecars binds seen s = (.ok out, s') →
      out.length = binds.length + sidecars.length ∧ out.take binds.length = binds ∧
      ∀ (i : Nat) (sidecar : SidecarMount), sidecars.get? i = some sidecar →
        ∃ digest,
          (getImageDigest env
            (pullImage env (prepareSidecarsLoop env (sidecars.take i) binds seen s).2
              sidecar.Image []).2 sidecar.Image).1 = .ok digest ∧
          out.get? (binds.length + i) =
            some (sanitizeVolumeName env.familiar sidecar.Image digest ++ str ":" ++
              sidecar.MountPath ++ (if sidecar.ReadWrite then [] else str ":ro")) := by
  induction sidecars with
  | nil =>
    intro binds seen s out s' h
    simp only [prepareSidecarsLoop, Prod.mk.injEq, Except.ok.injEq] at h
    rw [← h.1]
    simp
  | cons x rest ih =>
    intro binds seen s out s' h
    obtain ⟨digest, t, hd, hl⟩ := prepareSidecarsLoop_head env x rest binds seen s out s' h
    rw [hl rest] at h
    obtain ⟨h1, h2, h3⟩ := ih _ _ _ _ _ h
    simp only [List.length_append, List.length_singleton] at h1 h2
    have hpre : out.take (binds.length + 1) =
        binds ++ [sanitizeVolumeName env.familiar x.Image digest ++ str ":" ++
              x.MountPath ++ (if x.ReadWrite then [] else str ":ro")] := h2
    refine ⟨by simp only [List.length_cons]; omega, ?_, ?_⟩
    · have := congrArg (List.take binds.length) hpre
      rw [List.take_take, Nat.min_eq_left (Nat.le_succ _)] at this
      rw [this, List.take_left']
      rfl
    · intro i sidecar hi
      cases i with
      | zero =>
        simp only [List.get?_cons_zero, Option.some.injEq] at hi
        subst hi
        refine ⟨digest, hd, ?_⟩
        have := congrArg (fun l => l.get? binds.length) hpre
        simp only at this
        rw [List.get?_eq_getElem?, List.get?_eq_getElem?, List.getElem?_take_of_lt (by omega)] at this
        rw [Nat.add_zero, List.get?_eq_getElem?, this]
        simp
      | succ k =>
        simp only [List.get?_cons_succ] at hi
        obtain ⟨d, hd', hb⟩ := h3 k sidecar hi
        refine ⟨d, ?_, ?_⟩
        · rw [List.take_succ_cons, hl (rest.take k)]
          exact hd'
        · rw [← hb]
          simp only [List.length_append, List.length_singleton]
          congr 1
          omega

/-- Claim C16: when `prepareAdditionalSidecars` succeeds, it returns one bind
for each sidecar, in the order of the sidecars, the bind of the `i`-th being
`<volume>:<mount-path>`, followed by `:ro` unless the sidecar is read-write,
where `<volume>` is the volume name for its image and the digest read for it:
the digest `getImageDigest` returns right after the pull of that image, in
the state the loop has reached after the `i` sidecars before it.  Once the
executor has got through its preparations, its next Docker call creates the
task container, and the binds it hands over are `<volume>:/agent:ro` for the
volume of the primary sidecar, then the binds `prepareAdditionalSidecars`
returned, then the binds of the worker configuration; no other call of the
run creates a task container, and a run that does not get through its
preparations creates none. -/
theorem sidecar_binds (env : Env) (s : State) (assignment : TaskAssignmentMessage) :
    (∀ (sidecars : List SidecarMount) (binds : List GoString) (s' : State),
      prepareAdditionalSidecars env s sidecars = (.ok binds, s') →
      binds.length = sidecars.length ∧
      ∀ (i : Nat) (sidecar : SidecarMount), sidecars.get? i = some sidecar →
        ∃ digest,
          (getImageDigest env
            (pullImage env (prepareAdditionalSidecars env s (sidecars.take i)).2
              sidecar.Image []).2 sidecar.Image).1 = .ok digest ∧
          binds.get? i =
            some (sanitizeVolumeName env.familiar sidecar.Image digest ++ str ":" ++
              sidecar.MountPath ++ (if sidecar.ReadWrite then [] else str ":ro"))) ∧
    (∀ (volumeName : GoString) (binds : List GoString) (s5 : State),
      Prepared env s assignment volumeName binds s5 →
      ∃ cs0 cs : List Call,
        (∀ c ∈ cs0, c.notTaskContainer) ∧ (∀ c ∈ cs, c.notTaskContainer) ∧
        s5.trace = s.trace ++ cs0.map Event.docker ∧
        (executeTaskInDocker env s assignment).2.trace = s5.trace ++
          [Event.docker (Call.ContainerCreate
            (taskContainer env assignment (taskImage assignment) volumeName binds).1
            { Binds := [volumeName ++ str ":/agent:ro"] ++ binds ++ env.config.Volumes })] ++
          cs.map Event.docker) ∧
    (∀ (config : ContainerConfig) (host : HostConfig),
      Event.docker (Call.ContainerCreate config host) ∈
        (executeTaskInDocker env s assignment).2.trace.drop s.trace.length →
      config.WorkingDir = str "/workspace" →
      ∃ (volumeName : GoString) (binds : List GoString) (s5 : State),
        Prepared env s assignment volumeName binds s5 ∧
        host.Binds = [volumeName ++ str ":/agent:ro"] ++ binds ++ env.config.Volumes) := by
  have hP : ∀ c : Call, c.notTaskContainer → c.notTaskContainer := fun _ h => h
  have hrun : ∀ (volumeName : GoString) (binds : List GoString) (s5 : State),
      Prepared env s assignment volumeName binds s5 →
      ∃ cs : List Call, (∀ c ∈ cs, c.notTaskContainer) ∧
        (executeTaskInDocker env s assignment).2.trace = s5.trace ++
          [Event.docker (Call.ContainerCreate
            (taskContainer env assignment (taskImage assignment) volumeName binds).1
            { Binds := [volumeName ++ str ":/agent:ro"] ++ binds ++ env.config.Volumes })] ++
          cs.map Event.docker := by
    intro volumeName binds s5 hprep
    rw [executeTaskInDocker_of_prepared env s assignment volumeName binds s5 hprep]
    cases hc : env.containerCreate s5
        (taskContainer env assignment (taskImage assignment) volumeName binds).1
        (taskContainer env assignment (taskImage assignment) volumeName binds).2 with
    | error e =>
      refine ⟨[], by simp, ?_⟩
      unfold containerCreate
      rw [hc]
      simp [State.call, taskContainer]
    | ok id =>
      obtain ⟨_, _, _, _, _, cs, htr, hcs⟩ :=
        removeContainer_dockerOnly hP env
          (runCreatedContainer_dockerOnly hP env
            (DockerOnly.refl Call.notTaskContainer
              (s5.call (Call.ContainerCreate
                (taskContainer env assignment (taskImage assignment) volumeName binds).1
                (taskContainer env assignment (taskImage assignment) volumeName binds).2)))
            initialResult id) id
      refine ⟨cs, hcs, ?_⟩
      unfold containerCreate
      rw [hc]
      dsimp only
      rw [htr]
      simp [State.call, taskContainer]
  refine ⟨?_, ?_, ?_⟩
  · intro sidecars binds s' h
    obtain ⟨h1, _, h3⟩ := prepareSidecarsLoop_nth env sidecars [] [] s binds s' h
    refine ⟨by simpa using h1, fun i sidecar hi => ?_⟩
    obtain ⟨d, hd, hb⟩ := h3 i sidecar hi
    exact ⟨d, hd, by simpa using hb⟩
  · intro volumeName binds s5 hprep
    obtain ⟨cs, hcs, htr⟩ := hrun volumeName binds s5 hprep
    obtain ⟨_, _, _, _, _, cs0, htr0, hcs0⟩ :=
      Prepared_dockerOnly env s assignment volumeName binds s5 hprep
    exact ⟨cs0, cs, hcs0, hcs, htr0, htr⟩
  · intro config host hm hw
    have hnot : ∀ cs : List Call, (∀ c ∈ cs, c.notTaskContainer) →
        Event.docker (Call.ContainerCreate config host) ∉ cs.map Event.docker := by
      intro cs hcs hmem
      obtain ⟨c, hc, hce⟩ := List.mem_map.mp hmem
      have := hcs c hc
      rw [Event.docker.injEq] at hce
      rw [hce] at this
      have hw' : config.WorkingDir = [] := this
      rw [hw] at hw'
      exact absurd hw' (by decide)
    rcases executeTaskInDocker_prepared_or env s assignment with
      ⟨e, s1, heq, hd⟩ | ⟨v, b, t, hp, hd⟩
    · obtain ⟨_, _, _, _, _, cs, htr, hcs⟩ := hd
      rw [heq] at hm
      dsimp only at hm
      rw [htr, List.drop_left] at hm
      exact absurd hm (hnot cs hcs)
    · obtain ⟨cs, hcs, htr⟩ := hrun v b t hp
      obtain ⟨_, _, _, _, _, cs0, htr0, hcs0⟩ := hd
      rw [htr, htr0, List.append_assoc, List.append_assoc, List.drop_left] at hm
      rcases List.mem_append.mp hm with hm | hm
      · exact absurd hm (hnot cs0 hcs0)
      · rcases List.mem_append.mp hm with hm | hm
        · simp only [List.mem_singleton, Event.docker.injEq, Call.ContainerCreate.injEq] at hm
          exact ⟨v, b, t, hp, by rw [hm.2]⟩
        · exact absurd hm (hnot cs hcs)

/-- Claim C16 for a read-only sidecar at `/xvfb` and a read-write one at
`/cache`, under a worker configured with the host bind `/srv/models:/models`:
the task container is created with the four binds in this order. -/
theorem sidecar_binds_witness :
    ((prepareAdditionalSidecars (scenarioEnv 0) (New []) twoSidecars).1 =
        .ok [str "y-xvfb-aaaaaaaaaaaa:/xvfb:ro", str "z-cache-aaaaaaaaaaaa:/cache"] ∧
      [str "y-xvfb-aaaaaaaaaaaa:/xvfb:ro", str "z-cache-aaaaaaaaaaaa:/cache"].length =
        twoSidecars.length ∧
      ∃ digest,
        (getImageDigest (scenarioEnv 0)
          (pullImage (scenarioEnv 0)
            (prepareAdditionalSidecars (scenarioEnv 0) (New []) (twoSidecars.take 1)).2
            (str "z/cache") []).2 (str "z/cache")).1 = .ok digest ∧
        [str "y-xvfb-aaaaaaaaaaaa:/xvfb:ro", str "z-cache-aaaaaaaaaaaa:/cache"].get? 1 =
          some (sanitizeVolumeName (scenarioEnv 0).familiar (str "z/cache") digest ++ str ":" ++
            str "/cache" ++ (if true = true then [] else str ":ro"))) ∧
    (∃ s5 : State,
      Prepared bindsEnv (New []) (scenarioAssignment twoSidecars) (str "x-sidecar-aaaaaaaaaaaa")
        [str "y-xvfb-aaaaaaaaaaaa:/xvfb:ro", str "z-cache-aaaaaaaaaaaa:/cache"] s5 ∧
      ∃ cs0 cs : List Call,
        (∀ c ∈ cs0, c.notTaskContainer) ∧ (∀ c ∈ cs, c.notTaskContainer) ∧
        s5.trace = (New []).trace ++ cs0.map Event.docker ∧
        (executeTaskInDocker bindsEnv (New []) (scenarioAssignment twoSidecars)).2.trace =
          s5.trace ++
          [Event.docker (Call.ContainerCreate
            (taskContainer bindsEnv (scenarioAssignment twoSidecars)
              (taskImage (scenarioAssignment twoSidecars)) (str "x-sidecar-aaaaaaaaaaaa")
              [str "y-xvfb-aaaaaaaaaaaa:/xvfb:ro", str "z-cache-aaaaaaaaaaaa:/cache"]).1
            { Binds := [str "x-sidecar-aaaaaaaaaaaa" ++ str ":/agent:ro"] ++
                [str "y-xvfb-aaaaaaaaaaaa:/xvfb:ro", str "z-cache-aaaaaaaaaaaa:/cache"] ++
                bindsEnv.config.Volumes })] ++ cs.map Event.docker) ∧
    Event.docker (Call.ContainerCreate
        { Image := str "ubuntu:22.04"
          Cmd := [str "/bin/sh", str "/agent/entrypoint.sh", str "agent", str "run",
            str "--share", str "team:edit", str "--task-id", str "t1", str "--sandboxed",
            str "--server-root-url", str "http://localhost:8080"]
          Env := [str "TASK_ID=t1", str "GIT_TERMINAL_PROMPT=0", str "GH_PROMPT_DISABLED=1"]
          WorkingDir := str "/workspace" }
        { Binds := [str "x-sidecar-aaaaaaaaaaaa:/agent:ro", str "y-xvfb-aaaaaaaaaaaa:/xvfb:ro",
            str "z-cache-aaaaaaaaaaaa:/cache", str "/srv/models:/models"] }) ∈
      (executeTaskInDocker bindsEnv (New []) (scenarioAssignment twoSidecars)).2.trace :=
  ⟨⟨rfl, ((sidecar_binds (scenarioEnv 0) (New []) (scenarioAssignment twoSidecars)).1 twoSidecars
      [str "y-xvfb-aaaaaaaaaaaa:/xvfb:ro", str "z-cache-aaaaaaaaaaaa:/cache"]
      (prepareAdditionalSidecars (scenarioEnv 0) (New []) twoSidecars).2 rfl).1,
    ((sidecar_binds (scenarioEnv 0) (New []) (scenarioAssignment twoSidecars)).1 twoSidecars
      [str "y-xvfb-aaaaaaaaaaaa:/xvfb:ro", str "z-cache-aaaaaaaaaaaa:/cache"]
      (prepareAdditionalSidecars (scenarioEnv 0) (New []) twoSidecars).2 rfl).2 1
      ⟨str "z/cache", str "/cache", true⟩ rfl⟩,
   ⟨_, ⟨_, _, _, _, _, rfl, by decide, rfl, rfl, rfl, rfl, rfl⟩,
     (sidecar_binds bindsEnv (New []) (scenarioAssignment twoSidecars)).2.1 _ _ _
       ⟨_, _, _, _, _, rfl, by decide, rfl, rfl, rfl, rfl, rfl⟩⟩,
   by decide⟩

/-! ## The artifact list -/

/-- The URLs of the artifacts the loop of worker.go 701-714 adds: those of
`raw` not in `seen`, each once, where it comes first. -/
theorem collectArtifacts_urls (now : GoString) (raw : List GoString) :
    ∀ (seen : List GoString) (artifacts : List prArtifact),
      ∃ new : List GoString,
        (collectArtifacts now raw seen artifacts).map (fun a => a.Data.URL) =
          artifacts.map (fun a => a.Data.URL) ++ new ∧
        (∀ a ∈ collectArtifacts now raw seen artifacts, a ∈ artifacts ∨
          (a.ArtifactType = str "PULL_REQUEST" ∧ a.CreatedAt = now ∧
            a.Data.Branch = str "unknown")) ∧
        new.Nodup ∧ (∀ u, u ∈ new ↔ u ∈ raw ∧ u ∉ seen) ∧
        (∀ u v, u ∈ new → v ∈ new →
          (new.indexOf u < new.indexOf v ↔ raw.indexOf u < raw.indexOf v)) := by
  induction raw with
  | nil =>
    intro seen artifacts
    exact ⟨[], by simp [collectArtifacts], fun a ha => Or.inl ha, List.nodup_nil, by simp,
      by simp⟩
  | cons a raw ih =>
    intro seen artifacts
    unfold collectArtifacts
    split
    · next hs =>
      have hs' : a ∈ seen := by simpa using hs
      obtain ⟨new, h1, h2, h3, h4, h5⟩ := ih seen artifacts
      refine ⟨new, h1, h2, h3, ?_, ?_⟩
      · intro u
        rw [h4, List.mem_cons]
        constructor
        · exact fun ⟨hu, hn⟩ => ⟨Or.inr hu, hn⟩
        · rintro ⟨hu | hu, hn⟩
          · exact absurd (hu ▸ hs') hn
          · exact ⟨hu, hn⟩
      · intro u v hu hv
        have hua : a ≠ u := fun e => ((h4 u).mp hu).2 (e ▸ hs')
        have hva : a ≠ v := fun e => ((h4 v).mp hv).2 (e ▸ hs')
        have e1 : (a == u) = false := beq_eq_false_iff_ne.mpr hua
        have e2 : (a == v) = false := beq_eq_false_iff_ne.mpr hva
        rw [List.indexOf_cons, List.indexOf_cons, e1, e2, h5 u v hu hv]
        simp
    · next hs =>
      have hs' : a ∉ seen := by simpa using hs
      obtain ⟨new, h1, h2, h3, h4, h5⟩ := ih (a :: seen)
        (artifacts ++ [⟨str "PULL_REQUEST", now, ⟨str "unknown", a⟩⟩])
      have hanew : a ∉ new := fun h => ((h4 a).mp h).2 (List.mem_cons_self _ _)
      refine ⟨a :: new, ?_, ?_, List.nodup_cons.mpr ⟨hanew, h3⟩, ?_, ?_⟩
      · rw [h1]
        simp
      · intro x hx
        rcases h2 x hx with h | h
        · rcases List.mem_append.mp h with h | h
          · exact Or.inl h
          · rw [List.mem_singleton] at h
            rw [h]
            exact Or.inr ⟨rfl, rfl, rfl⟩
        · exact Or.inr h
      · intro u
        rw [List.mem_cons, h4, List.mem_cons, List.mem_cons]
        constructor
        · rintro (hu | ⟨hu, hn⟩)
          · exact ⟨Or.inl hu, hu ▸ hs'⟩
          · exact ⟨Or.inr hu, fun h => hn (Or.inr h)⟩
        · rintro ⟨hu | hu, hn⟩
          · exact Or.inl hu
          · by_cases hua : u = a
            · exact Or.inl hua
            · exact Or.inr ⟨hu, fun h => h.elim hua hn⟩
      · intro u v hu hv
        by_cases hua : a = u
        · subst hua
          by_cases hva : a = v
          · subst hva
            simp
          · have e2 : (a == v) = false := beq_eq_false_iff_ne.mpr hva
            simp [List.indexOf_cons, e2]
        · have e1 : (a == u) = false := beq_eq_false_iff_ne.mpr hua
          by_cases hva : a = v
          · subst hva
            simp [List.indexOf_cons, e1]
          · have e2 : (a == v) = false := beq_eq_false_iff_ne.mpr hva
            have hu' : u ∈ new := (List.mem_cons.mp hu).resolve_left (fun e => hua e.symm)
            have hv' : v ∈ new := (List.mem_cons.mp hv).resolve_left (fun e => hva e.symm)
            have := h5 u v hu' hv'
            simp only [List.indexOf_cons, e1, e2, cond_false, Nat.add_lt_add_iff_right]
            exact this

theorem extract_getD (now output : GoString) :
    (extractArtifactsAndSession now output).1.getD [] =
      jsonMarshalArtifacts (collectArtifacts now (findAllString prRe output) [] []) := by
  unfold extractArtifactsAndSession
  split
  · next h =>
    rw [h]
    rfl
  · dsimp only
    split
    · next h =>
      rw [List.length_eq_zero.mp h]
      rfl
    · rfl

/-- The URLs of the artifacts returned: the strings the pull-request pattern
matches in the output, each once, in the order of their first matches, and
each written as a JSON string.  They are pairwise distinct when every match
is valid UTF-8.  For the empty text and for a text without a match the
artifacts are nil. -/
theorem extractArtifacts_urls (now output : GoString) :
    ∃ new : List GoString,
      ((extractArtifactsAndSession now output).1.getD []).map (fun a => a.Data.URL) =
        new.map jsonString ∧
      new.Nodup ∧ (∀ u, u ∈ new ↔ u ∈ findAllString prRe output) ∧
      (∀ u v, u ∈ findAllString prRe output → v ∈ findAllString prRe output →
        (new.indexOf u < new.indexOf v ↔
          (findAllString prRe output).indexOf u < (findAllString prRe output).indexOf v)) ∧
      ((∀ u ∈ findAllString prRe output, validString u = true) →
        (((extractArtifactsAndSession now output).1.getD []).map (fun a => a.Data.URL)).Nodup) ∧
      (output = [] → (extractArtifactsAndSession now output).1 = none) ∧
      (findAllString prRe output = [] → (extractArtifactsAndSession now output).1 = none) := by
  obtain ⟨new, h1, _, h3, h4, h5⟩ :=
    collectArtifacts_urls now (findAllString prRe output) [] []
  simp only [List.map_nil, List.nil_append] at h1
  have hmem : ∀ u, u ∈ new ↔ u ∈ findAllString prRe output := by
    intro u
    rw [h4]
    simp
  have hurls : ((extractArtifactsAndSession now output).1.getD []).map (fun a => a.Data.URL) =
      new.map jsonString := by
    rw [extract_getD, ← h1]
    unfold jsonMarshalArtifacts
    rw [List.map_map, List.map_map]
    rfl
  refine ⟨new, hurls, h3, hmem, fun u v hu hv => ?_, fun hv => ?_, fun h => ?_,
    extract_artifacts now output⟩
  · exact h5 u v ((hmem u).mpr hu) ((hmem v).mpr hv)
  · rw [hurls]
    have : new.map jsonString = new.map id :=
      List.map_congr_left (fun u hu => jsonString_of_valid u (hv u ((hmem u).mp hu)))
    rw [this, List.map_id]
    exact h3
  · rw [h]
    rfl

/-- At a text with three matches, the first and the third alike, the
artifacts are two, in the order of the first two matches. -/
theorem extractArtifacts_urls_example :
    findAllString prRe backslashOutput =
      [str "https://github\\.com/o/r/pull/\\d", str "https://github\\.com/a/b/pull/\\dd",
       str "https://github\\.com/o/r/pull/\\d"] ∧
    ((extractArtifactsAndSession [] backslashOutput).1.getD []).map (fun a => a.Data.URL) =
      [str "https://github\\.com/o/r/pull/\\d", str "https://github\\.com/a/b/pull/\\dd"] := by
  decide

/-- Claim C14, at a text in which the pattern of worker.go 686 matches twice,
the matches differing in one byte, `0xFF` and `0xFE`, that stands where the
pattern asks for any rune: the loop keeps both, and `json.Marshal` writes
each of the two bytes as U+FFFD, so the artifacts returned are two entries
with one and the same url. -/
theorem artifact_urls_collide :
    findAllString prRe invalidByteOutput =
      [str "https://github\\" ++ [0xFF] ++ str "com/o/r/pull/\\d",
       str "https://github\\" ++ [0xFE] ++ str "com/o/r/pull/\\d"] ∧
    (extractArtifactsAndSession (str "2026-01-01T00:00:00Z") invalidByteOutput).1 =
      some
        [{ ArtifactType := str "PULL_REQUEST", CreatedAt := str "2026-01-01T00:00:00Z",
           Data := { Branch := str "unknown", URL := str "https://github\\\uFFFDcom/o/r/pull/\\d" } },
         { ArtifactType := str "PULL_REQUEST", CreatedAt := str "2026-01-01T00:00:00Z",
           Data := { Branch := str "unknown", URL := str "https://github\\\uFFFDcom/o/r/pull/\\d" } }] := by
  decide

/-! ## Reconnecting after a session -/

theorem Start_trace_prefix (rounds : List Round) : ∀ s : State,
    ∃ tail, (Start s rounds).trace = s.trace ++ tail := by
  induction rounds with
  | nil => intro s; exact ⟨[], by simp [Start]⟩
  | cons r rounds ih =>
    intro s
    cases r with
    | cancelled => exact ⟨[], by simp [Start]⟩
    | dialFailed =>
      obtain ⟨tail, h⟩ := ih { s with
        trace := s.trace ++ [Event.dial false, Event.sleep s.reconnectDelay]
        reconnectDelay := nextReconnectDelay s.reconnectDelay }
      exact ⟨_, by rw [Start, h, List.append_assoc]⟩
    | session =>
      obtain ⟨tail, h⟩ := ih { s with
        trace := s.trace ++ [Event.dial true, Event.run]
        reconnectDelay := InitialReconnectDelay }
      exact ⟨_, by rw [Start, h, List.append_assoc]⟩

/-- Claim C13 as stated fails: two sessions in a row are a dial, a run, a
dial and a run, with no sleep between the end of the first session and the
next dial. -/
theorem reconnect_after_session_without_sleep :
    (Start (New []) [Round.session, Round.session]).trace =
      [Event.dial true, Event.run, Event.dial true, Event.run] := by
  decide

/-- Claim C13, amended: after a session ends, `Start` goes on with the next
turn of its loop at once.  If the context is done, it returns: nothing is
dialled or slept any more, whatever would have come next.  Otherwise it
dials without a sleep; the delay is the initial one, set by the successful
dial; and only if this dial fails does it sleep, for that delay of 1 s, and
double the delay to 2 s.  From there `Start` goes on as from any other
state, and all it does is add to the trace. -/
theorem reconnect_after_session (s : State) (rounds : List Round) :
    Start s (Round.session :: Round.cancelled :: rounds) =
      { s with
        trace := s.trace ++ [Event.dial true, Event.run]
        reconnectDelay := InitialReconnectDelay } ∧
    Start s (Round.session :: Round.session :: rounds) =
      Start { s with
        trace := s.trace ++ [Event.dial true, Event.run, Event.dial true, Event.run]
        reconnectDelay := InitialReconnectDelay } rounds ∧
    Start s (Round.session :: Round.dialFailed :: rounds) =
      Start { s with
        trace := s.trace ++ [Event.dial true, Event.run, Event.dial false,
          Event.sleep InitialReconnectDelay]
        reconnectDelay := 2 * InitialReconnectDelay } rounds ∧
    (Start s [Round.session]).reconnectDelay = InitialReconnectDelay ∧
    (∀ t : State, Start t (Round.cancelled :: rounds) = t) ∧
    (∀ t : State, ∃ tail, (Start t rounds).trace = t.trace ++ tail) := by
  refine ⟨rfl, ?_, ?_, rfl, fun _ => rfl, fun t => Start_trace_prefix rounds t⟩
  · simp only [Start, List.append_assoc, List.cons_append, List.nil_append]
  · simp only [Start, List.append_assoc, List.cons_append, List.nil_append]
    rfl

/-! ## Volume names: fallbacks and examples -/

theorem stringsSplit_length (sep : UInt8) (s : GoString) :
    (stringsSplit sep s).length = s.count sep + 1 := by
  induction s with
  | nil => rfl
  | cons c cs ih =>
    unfold stringsSplit
    by_cases h : c = sep
    · subst h
      simp [ih]
    · rw [if_neg h, List.count_cons_of_ne (fun e => h e.symm)]
      generalize stringsSplit sep cs = l at ih
      cases l with
      | nil => simp at ih
      | cons p ps => simpa using ih

/-- The name is the base, a dash, and a suffix taken from the digest. -/
theorem sanitizeVolumeName_eq (familiar : GoString → Option GoString)
    (image digest : GoString) :
    sanitizeVolumeName familiar image digest =
      stringsReplaceAll slash dash ((familiar image).getD image) ++ [dash] ++
        (match stringsSplit colon digest with
          | [_, hash] => hash.take 12
          | _ => stringsReplaceAll colon dash digest) := by
  unfold sanitizeVolumeName
  generalize stringsSplit colon digest = l
  cases familiar image <;> rcases l with _ | ⟨a, _ | ⟨b, _ | ⟨c, l⟩⟩⟩ <;>
    simp only [take12, Option.getD]

/-- Claim C15: when the image reference fails to parse, the base of the name
is the raw reference with every `/` replaced by `-`; and when the digest does
not split on `:` into exactly two parts, which is when it does not hold
exactly one `:`, the name is the base, `-`, and the whole digest with every
`:` replaced by `-`. -/
theorem sanitizeVolumeName_fallbacks (familiar : GoString → Option GoString)
    (image digest : GoString) :
    (familiar image = none →
      sanitizeVolumeName familiar image digest =
        stringsReplaceAll slash dash image ++ [dash] ++
          (match stringsSplit colon digest with
            | [_, hash] => hash.take 12
            | _ => stringsReplaceAll colon dash digest)) ∧
    ((stringsSplit colon digest).length ≠ 2 →
      sanitizeVolumeName familiar image digest =
        stringsReplaceAll slash dash ((familiar image).getD image) ++ [dash] ++
          stringsReplaceAll colon dash digest) ∧
    ((stringsSplit colon digest).length = 2 ↔ digest.count colon = 1) := by
  refine ⟨?_, ?_, ?_⟩
  · intro h
    rw [sanitizeVolumeName_eq, h]
    rfl
  · intro h
    rw [sanitizeVolumeName_eq]
    split
    · next hash heq =>
      rw [heq] at h
      exact absurd rfl h
    · rfl
  · rw [stringsSplit_length]
    omega

/-- Claim C15 at a reference that does not parse and digests with no `:` and
with two. -/
theorem sanitizeVolumeName_fallbacks_witness :
    sanitizeVolumeName (fun _ => none) (str "Acme/Agent") (str "abc") = str "Acme-Agent-abc" ∧
      sanitizeVolumeName (fun _ => none) (str "Acme/Agent") (str "a:b:c") =
        str "Acme-Agent-a-b-c" :=
  ⟨((sanitizeVolumeName_fallbacks (fun _ => none) (str "Acme/Agent") (str "abc")).2.1
      (by decide)).trans (by decide),
   ((sanitizeVolumeName_fallbacks (fun _ => none) (str "Acme/Agent") (str "a:b:c")).2.1
      (by decide)).trans (by decide)⟩


/-- Claim C12 as stated fails: the familiar name of `ghcr.io/acme/agent:v3`
is `ghcr.io/acme/agent`, so with the digest `sha256:abcdef0123456789` the
volume name is `ghcr.io-acme-agent-abcdef012345` and not
`acme-agent-abcdef012345`. -/
theorem volume_name_example_keeps_registry :
    familiarName (str "ghcr.io/acme/agent:v3") = some (str "ghcr.io/acme/agent") ∧
    sanitizeVolumeName familiarName (str "ghcr.io/acme/agent:v3")
        (str "sha256:abcdef0123456789") = str "ghcr.io-acme-agent-abcdef012345" ∧
    sanitizeVolumeName familiarName (str "ghcr.io/acme/agent:v3")
        (str "sha256:abcdef0123456789") ≠ str "acme-agent-abcdef012345" := by
  decide

/-- Claim C12, amended: for every digest that starts `sha256:abcdef0123456789`
the image `ghcr.io/acme/agent:v3` gets the volume name
`ghcr.io-acme-agent-abcdef012345`; the name `acme-agent-abcdef012345` is that
of `docker.io/acme/agent:v3`, whose familiar name has no registry host. -/
theorem volume_name_example (more : GoString) (hmore : colon ∉ more) :
    sanitizeVolumeName familiarName (str "ghcr.io/acme/agent:v3")
        (str "sha256:abcdef0123456789" ++ more) = str "ghcr.io-acme-agent-abcdef012345" ∧
      sanitizeVolumeName familiarName (str "docker.io/acme/agent:v3")
        (str "sha256:abcdef0123456789" ++ more) = str "acme-agent-abcdef012345" := by
  have e : str "sha256:abcdef0123456789" ++ more =
      str "sha256" ++ colon :: (str "abcdef0123456789" ++ more) := rfl
  have hh : colon ∉ str "abcdef0123456789" ++ more := by
    intro h
    rcases List.mem_append.mp h with h | h
    · exact absurd h (by decide)
    · exact hmore h
  have ht : (str "abcdef0123456789" ++ more).take 12 = str "abcdef012345" := rfl
  have f1 : familiarName (str "ghcr.io/acme/agent:v3") = some (str "ghcr.io/acme/agent") := by
    decide
  have f2 : familiarName (str "docker.io/acme/agent:v3") = some (str "acme/agent") := by
    decide
  constructor
  · rw [e, sanitizeVolumeName_algo_hex familiarName _ (str "sha256") _ (by decide) hh, f1, ht]
    decide
  · rw [e, sanitizeVolumeName_algo_hex familiarName _ (str "sha256") _ (by decide) hh, f2, ht]
    decide

/-- Claim C12, amended, at the digest `sha256:abcdef01234567890123`. -/
theorem volume_name_example_witness :
    sanitizeVolumeName familiarName (str "ghcr.io/acme/agent:v3")
        (str "sha256:abcdef0123456789" ++ str "0123") = str "ghcr.io-acme-agent-abcdef012345" ∧
      sanitizeVolumeName familiarName (str "docker.io/acme/agent:v3")
        (str "sha256:abcdef0123456789" ++ str "0123") = str "acme-agent-abcdef012345" :=
  volume_name_example (str "0123") (by decide)

/-- Claim C17, at the image `localhost:5000/agent`, a registry with a port,
and the digest `sha256:abcdef0123456789`: the volume name is
`localhost:5000-agent-abcdef012345`, which holds a `:`, and the bind built
from it splits on `:` into four fields, not three. -/
theorem volume_name_with_registry_port :
    familiarName (str "localhost:5000/agent") = some (str "localhost:5000/agent") ∧
    sanitizeVolumeName familiarName (str "localhost:5000/agent")
        (str "sha256:abcdef0123456789") = str "localhost:5000-agent-abcdef012345" ∧
    colon ∈ sanitizeVolumeName familiarName (str "localhost:5000/agent")
        (str "sha256:abcdef0123456789") ∧
    stringsSplit colon (sanitizeVolumeName familiarName (str "localhost:5000/agent")
        (str "sha256:abcdef0123456789") ++ str ":/agent:ro") =
      [str "localhost", str "5000-agent-abcdef012345", str "/agent", str "ro"] := by
  decide

/-- For a digest `algo:hex` whose hex part has no `/`, the volume name has no
`/`, and it has a `:` exactly when the repository name used for it, the
familiar name or the raw reference, has one. -/
theorem sanitizeVolumeName_chars (familiar : GoString → Option GoString)
    (image algo hex : GoString) (ha : colon ∉ algo) (hh : colon ∉ hex) (hs : slash ∉ hex) :
    slash ∉ sanitizeVolumeName familiar image (algo ++ colon :: hex) ∧
    (colon ∈ sanitizeVolumeName familiar image (algo ++ colon :: hex) ↔
      colon ∈ (familiar image).getD image) := by
  rw [sanitizeVolumeName_algo_hex familiar image algo hex ha hh]
  have hrep : ∀ (c : UInt8) (s : GoString), c ≠ slash → c ≠ dash →
      (c ∈ stringsReplaceAll slash dash s ↔ c ∈ s) := by
    intro c s h1 h2
    unfold stringsReplaceAll
    rw [List.mem_map]
    constructor
    · rintro ⟨x, hx, hxe⟩
      split at hxe
      · exact absurd hxe.symm h2
      · exact hxe ▸ hx
    · intro hc
      exact ⟨c, hc, by rw [if_neg h1]⟩
  have hns : slash ∉ stringsReplaceAll slash dash ((familiar image).getD image) := by
    unfold stringsReplaceAll
    rw [List.mem_map]
    rintro ⟨x, _, hxe⟩
    split at hxe
    · revert hxe
      decide
    · next hne => exact hne hxe
  constructor
  · simp only [List.mem_append, List.mem_singleton, not_or]
    exact ⟨⟨hns, by decide⟩, fun h => hs (List.mem_of_mem_take h)⟩
  · simp only [List.mem_append, List.mem_singleton]
    rw [hrep colon _ (by decide) (by decide)]
    constructor
    · rintro ((h | h) | h)
      · exact h
      · exact absurd h (by decide)
      · exact absurd (List.mem_of_mem_take h) hh
    · exact fun h => Or.inl (Or.inl h)

end OzWorker
